import Mathlib

/-!
The welfare-sign service: check-in lifecycle and benefit settlement.

A shallow embedding of the storage layer (`internal/dao/checkin_record.go`,
`internal/dao/merchant.go`, `internal/dao/dao.go`) and of the write-off service
(`internal/service/merchant.go`).

Modelling conventions.

* The relational store is a record of tables, each table a list of rows.
* A transaction (`d.db.Begin()`) works on a copy of the store; `tx.Commit()`
  returns the copy, `tx.Rollback()` returns the store the call started from.
  `Begin` and `Commit` themselves are taken to succeed (the source never
  inspects their result).
* Every statement whose `.Error` the source inspects may fail: `Env.fault k` is
  the outcome of the `k`-th statement issued during a call (`none` = no error,
  `some c` = a driver error with code `c`).  `gorm.ErrRecordNotFound` is not a
  driver error: it is produced by `First` exactly when no row matches.
* `time.Now()` is read from `Env.now`: `Env.now k` is the `k`-th reading taken
  during a call.  `CURRENT_DATE` and `DATE(..)` of the SQL text are `Env.CURRENT_DATE`
  and `Env.DATE`.
* `uint64` values are naturals; `+` and `-` on them are taken modulo `2 ^ 64`.
-/

namespace WelfareSign

/-! ## Machine integers -/

/-- Go `+` on `uint64`. -/
def u64add (a b : Nat) : Nat := (a + b) % 2 ^ 64

/-- Go `-` on `uint64`. -/
def u64sub (a b : Nat) : Nat := (a + (2 ^ 64 - b % 2 ^ 64)) % 2 ^ 64

/-! ## Data model -/

/-- Modelled from the spec: package `global` is not under src/; its status constants
`ActiveStatus`, `InactiveStatus`, `DeleteStatus` are the three states of the spec's
data model (Active, Inactive, Deleted). -/
inductive RowStatus
  | ActiveStatus
  | InactiveStatus
  | DeleteStatus
deriving DecidableEq, Repr

/-- Modelled from the spec: the read flag of a message (`global.UnRead` is the only
value the source writes). -/
inductive ReadFlag
  | UnRead
  | Read
deriving DecidableEq, Repr

open RowStatus ReadFlag

/-- Modelled from the spec: `model.CheckinRecord` is not under src/; the fields are the
ones the source reads or writes and the spec's entity table lists. -/
structure CheckinRecord where
  ID : Nat
  CustomerID : Nat
  Day : Nat
  NeedCheckinTime : Nat
  Status : RowStatus
  HelpCheckinCustomerID : Nat
  CreatedAt : Nat
  UpdatedAt : Nat
deriving DecidableEq, Repr

/-- Modelled from the spec: `model.CheckinRecordLog` (id, customerID, createdAt). -/
structure CheckinRecordLog where
  ID : Nat
  CustomerID : Nat
  CreatedAt : Nat
deriving DecidableEq, Repr

/-- Modelled from the spec: `model.IssueRecord`. -/
structure IssueRecord where
  ID : Nat
  MerchantID : Nat
  CustomerID : Nat
  Status : RowStatus
  TotalReceive : Nat
  Received : Nat
  CreatedAt : Nat
deriving DecidableEq, Repr

/-- Modelled from the spec: `model.Merchant` (the counters and keys of the entity table). -/
structure Merchant where
  ID : Nat
  Status : RowStatus
  TotalReceive : Nat
  Received : Nat
  HasWriteOffNum : Nat
  HasFailure : Nat
deriving DecidableEq, Repr

/-- Modelled from the spec: `model.Customer` (id, status, lastCheckinTime). -/
structure Customer where
  ID : Nat
  Status : RowStatus
  LastCheckinTime : Nat
deriving DecidableEq, Repr

/-- Modelled from the spec: `model.WXPayRecord`, the spec's PaymentRecord
(id, checkinRecordID, createdAt). -/
structure WXPayRecord where
  ID : Nat
  CheckinRecordID : Nat
  CreatedAt : Nat
deriving DecidableEq, Repr

/-- Modelled from the spec: `model.HelpCheckinMessage` (id, checkinRecordID, customerID, isRead). -/
structure HelpCheckinMessage where
  ID : Nat
  CheckinRecordID : Nat
  CustomerID : Nat
  IsRead : ReadFlag
deriving DecidableEq, Repr

/-- The relational store behind `d.db`: one list of rows per table. -/
structure Store where
  CheckinRecords : List CheckinRecord
  CheckinRecordLogs : List CheckinRecordLog
  IssueRecords : List IssueRecord
  Merchants : List Merchant
  Customers : List Customer
  WXPayRecords : List WXPayRecord
  HelpCheckinMessages : List HelpCheckinMessage
deriving DecidableEq, Repr

/-- The store with no rows. -/
def Store.empty : Store := ⟨[], [], [], [], [], [], []⟩

/-- Go zero value of `model.Merchant`. -/
def Merchant.zero : Merchant := ⟨0, InactiveStatus, 0, 0, 0, 0⟩

/-- Go zero value of `model.Customer`. -/
def Customer.zero : Customer := ⟨0, InactiveStatus, 0⟩

/-- Go zero value of `model.IssueRecord`. -/
def IssueRecord.zero : IssueRecord := ⟨0, 0, 0, InactiveStatus, 0, 0, 0⟩

/-! ## Errors, clock and fault environment -/

/-- Go `error` values that occur in the embedded code. -/
inductive Err
  /-- The value `gorm.ErrRecordNotFound`. -/
  | ErrRecordNotFound
  /-- Any other error reported by the database driver. -/
  | db (code : Nat)
  /-- The service error "用户没有福利可核销". -/
  | noWelfare
  /-- The service error "核销数目不正确". -/
  | wrongNum
deriving DecidableEq, Repr

/-- Modelled from the spec: the API codes of packages `wsgin` and `apicode` (not under
src/) that the write-off service returns. -/
inductive APICode
  | APICodeSuccess
  | ErrWriteOff
  | ErrExecWriteOff
deriving DecidableEq, Repr

/-- What a call reads from outside the store. -/
structure Env where
  /-- The k-th reading of `time.Now()` during the call. -/
  now : Nat → Nat
  /-- The outcome of the k-th statement of the call. -/
  fault : Nat → Option Nat
  /-- The SQL value `CURRENT_DATE`. -/
  CURRENT_DATE : Nat
  /-- The SQL function `DATE`. -/
  DATE : Nat → Nat

/-- The environment seen by a callee that starts after `n` statements were issued. -/
def Env.skip (env : Env) (n : Nat) : Env :=
  { env with fault := fun k => env.fault (n + k) }

/-- Source `checkErr` (dao.go): a not-found condition is not an error. -/
def checkErr (err : Option Err) : Option Err :=
  match err with
  | some Err.ErrRecordNotFound => none
  | some e => some e
  | none => none

/-! ## gorm primitives -/

/-- The row with the least key (the first in primary-key order). -/
def minByKey {α : Type} (key : α → Nat) : List α → Option α
  | [] => none
  | x :: xs =>
    match minByKey key xs with
    | none => some x
    | some y => if key x ≤ key y then some x else some y

/-- The gorm call `Where(query).First(&out)`: the matching row with the least primary key,
`ErrRecordNotFound` when there is none, a driver error when the statement fails. -/
def gormFirst {α : Type} (key : α → Nat) (query : α → Bool) (tbl : List α)
    (fault : Option Nat) : Option α × Option Err :=
  match fault with
  | some c => (none, some (Err.db c))
  | none =>
    match minByKey key (tbl.filter query) with
    | none => (none, some Err.ErrRecordNotFound)
    | some x => (some x, none)

/-- The id an auto-increment primary key column hands to a new row. -/
def nextID (ids : List Nat) : Nat := ids.foldr max 0 + 1

/-- The gorm call `Save(value)` on a table: a row with a blank primary key is inserted under
a fresh id; otherwise the rows with that key are overwritten, and the row is inserted when
there is none. -/
def gormSave {α : Type} (key : α → Nat) (setKey : α → Nat → α) (tbl : List α) (x : α) :
    List α :=
  if key x = 0 then tbl ++ [setKey x (nextID (tbl.map key))]
  else if tbl.any (fun r => key r == key x) then
    tbl.map (fun r => if key r = key x then x else r)
  else tbl ++ [x]

/-! ## dao: merchant.go -/

namespace dao

/-- Source `FindMerchant`: the first merchant matching the query, the zero value when
there is none. -/
def FindMerchant (s : Store) (fault : Option Nat) (query : Merchant → Bool) :
    Merchant × Option Err :=
  let r := gormFirst Merchant.ID query s.Merchants fault
  (r.1.getD Merchant.zero, checkErr r.2)

/-- Modelled from the spec: `FindCustomer` is declared in the `Dao` interface but its body
is not under src/; a not-found lookup is an empty result, as in `FindMerchant`. -/
def FindCustomer (s : Store) (fault : Option Nat) (query : Customer → Bool) :
    Customer × Option Err :=
  let r := gormFirst Customer.ID query s.Customers fault
  (r.1.getD Customer.zero, checkErr r.2)

/-- Modelled from the spec: `FindIssueRecord` is declared in the `Dao` interface but its
body is not under src/; a not-found lookup is an empty result, as in `FindMerchant`. -/
def FindIssueRecord (s : Store) (fault : Option Nat) (query : IssueRecord → Bool) :
    IssueRecord × Option Err :=
  let r := gormFirst IssueRecord.ID query s.IssueRecords fault
  (r.1.getD IssueRecord.zero, checkErr r.2)

/-- Source `EcecWriteOff`: in one transaction, set `received` of the active issue records
of (merchantID, customerID) and `has_write_off_num` of the merchant.  A failure of the
second update rolls back and returns `nil`, as the source does. -/
def EcecWriteOff (s : Store) (env : Env) (merchantID customerID hasRece writeOffNum : Nat) :
    Store × Option Err :=
  match env.fault 0 with
  | some c => (s, some (Err.db c))
  | none =>
    let tx : Store := { s with IssueRecords := s.IssueRecords.map (fun r =>
      if r.MerchantID = merchantID ∧ r.CustomerID = customerID ∧ r.Status = ActiveStatus
      then { r with Received := hasRece } else r) }
    match env.fault 1 with
    | some _ => (s, none)
    | none =>
      ({ tx with Merchants := tx.Merchants.map (fun m =>
          if m.ID = merchantID then { m with HasWriteOffNum := writeOffNum } else m) }, none)

end dao

/-! ## service: merchant.go -/

/-- Modelled from the spec: `model.MerchantExecWriteOffVO`, the write-off request. -/
structure MerchantExecWriteOffVO where
  MerchantID : Nat
  CustomerID : Nat
  Num : Nat
deriving DecidableEq, Repr

/-- Modelled from the spec: `model.MerchantWriteOffRespVO`, the write-off page data. -/
structure MerchantWriteOffRespVO where
  Merchant : Merchant
  Customer : Customer
  IssueRecord : IssueRecord
  Num : Nat
deriving DecidableEq, Repr

/-- What `Service.ExecWriteOff` hands back, with the store it leaves behind. -/
structure WriteOffResult where
  store : Store
  resp : Option MerchantWriteOffRespVO
  code : APICode
  err : Option Err
deriving DecidableEq, Repr

namespace Service

/-- Source `GetWriteOff`: look up the active merchant, the active customer and the active
issue record of the pair (statements 0, 1 and 2 of the call). -/
def GetWriteOff (s : Store) (env : Env) (merchantID customerID : Nat) :
    Option MerchantWriteOffRespVO × APICode × Option Err :=
  let m := dao.FindMerchant s (env.fault 0)
    (fun m => decide (m.ID = merchantID ∧ m.Status = ActiveStatus))
  if m.2 ≠ none ∨ m.1.ID = 0 then (none, APICode.ErrWriteOff, m.2)
  else
    let c := dao.FindCustomer s (env.fault 1)
      (fun c => decide (c.ID = customerID ∧ c.Status = ActiveStatus))
    if c.2 ≠ none ∨ c.1.ID = 0 then (none, APICode.ErrWriteOff, c.2)
    else
      let r := dao.FindIssueRecord s (env.fault 2)
        (fun r => decide (r.MerchantID = merchantID ∧ r.CustomerID = customerID
          ∧ r.Status = ActiveStatus))
      if r.2 ≠ none then (none, APICode.ErrWriteOff, r.2)
      else (some ⟨m.1, c.1, r.1, 0⟩, APICode.APICodeSuccess, none)

/-- Source `ExecWriteOff`.  The result is `none` when the call dereferences the nil
response of `GetWriteOff` (a run-time panic). -/
def ExecWriteOff (s : Store) (env : Env) (vo : MerchantExecWriteOffVO) :
    Option WriteOffResult :=
  match GetWriteOff s env vo.MerchantID vo.CustomerID with
  | (_, code, some e) => some ⟨s, none, code, some e⟩
  | (none, _, none) => none
  | (some resp, _, none) =>
    if resp.IssueRecord.ID = 0 then some ⟨s, none, APICode.ErrExecWriteOff, some Err.noWelfare⟩
    else if u64sub resp.IssueRecord.TotalReceive resp.IssueRecord.Received < vo.Num then
      some ⟨s, none, APICode.ErrExecWriteOff, some Err.wrongNum⟩
    else
      let hasRece := u64add resp.IssueRecord.Received vo.Num
      let writeOffNum := u64add resp.Merchant.HasWriteOffNum vo.Num
      let resp1 : MerchantWriteOffRespVO := { resp with IssueRecord :=
        { resp.IssueRecord with Received := u64sub resp.IssueRecord.TotalReceive hasRece } }
      let w := dao.EcecWriteOff s (env.skip 3) resp1.Merchant.ID resp1.Customer.ID hasRece
        writeOffNum
      match w.2 with
      | some _ => some ⟨w.1, none, APICode.ErrExecWriteOff, some Err.wrongNum⟩
      | none => some ⟨w.1, some { resp1 with Num := vo.Num }, APICode.APICodeSuccess, none⟩

end Service

/-! ## dao: checkin_record.go -/

/-- Go `time.Hour`, in nanoseconds. -/
def Hour : Nat := 3600 * 1000000000

/-- How a call that may hit a run-time panic ends. -/
inductive Outcome
  /-- The call returned this `error` value (`none` is `nil`). -/
  | returned (err : Option Err)
  /-- The call hit a run-time panic (index out of range). -/
  | panicked
deriving DecidableEq, Repr

namespace dao

/-- The loop of `InitCheckinRecords`: `n` iterations remain, `i` is the loop variable.
Iteration `i` reads the clock three times (UpdatedAt, CreatedAt, NeedCheckinTime) and
issues statement `i`, the insert. -/
def InitCheckinRecords.loop (env : Env) (customerID : Nat) :
    Nat → Nat → Store → List CheckinRecord → Except Err (Store × List CheckinRecord)
  | 0, _, tx, res => Except.ok (tx, res)
  | n + 1, i, tx, res =>
    match env.fault i with
    | some c => Except.error (Err.db c)
    | none =>
      let cr : CheckinRecord :=
        { ID := nextID (tx.CheckinRecords.map CheckinRecord.ID)
          CustomerID := customerID
          Day := u64add i 1
          NeedCheckinTime := env.now (3 * i + 2) + i * 24 * Hour
          Status := InactiveStatus
          HelpCheckinCustomerID := 0
          CreatedAt := env.now (3 * i + 1)
          UpdatedAt := env.now (3 * i) }
      InitCheckinRecords.loop env customerID n (i + 1)
        { tx with CheckinRecords := tx.CheckinRecords ++ [cr] } (res ++ [cr])

/-- Source `InitCheckinRecords`: create the five records of a cycle in one transaction. -/
def InitCheckinRecords (s : Store) (env : Env) (customerID : Nat) :
    Store × Option (List CheckinRecord) × Option Err :=
  match InitCheckinRecords.loop env customerID 5 0 s [] with
  | Except.error e => (s, none, some e)
  | Except.ok (tx, res) => (tx, some res, none)

/-- The customer update shared by the check-in variants:
`Where(id, status = Active).Update("last_checkin_time", now)`. -/
def touchCustomer (tx : Store) (customerID now : Nat) : Store :=
  { tx with Customers := tx.Customers.map (fun c =>
      if c.ID = customerID ∧ c.Status = ActiveStatus then { c with LastCheckinTime := now }
      else c) }

/-- The rows selected by `execCheckinSQL`. -/
def execCheckinSel (env : Env) (customerID : Nat) (r : CheckinRecord) : Bool :=
  decide (env.DATE r.NeedCheckinTime = env.CURRENT_DATE ∧ r.Status = InactiveStatus
    ∧ r.CustomerID = customerID)

/-- Source `ExecCheckin`: statement 0 is `execCheckinSQL`, statement 1 the customer update,
statement 2 the insert of the log row. -/
def ExecCheckin (s : Store) (env : Env) (customerID : Nat) : Store × Option Err :=
  match env.fault 0 with
  | some c => (s, some (Err.db c))
  | none =>
    let tx1 : Store := { s with CheckinRecords := s.CheckinRecords.map (fun r =>
      if execCheckinSel env customerID r then
        { r with Status := ActiveStatus, UpdatedAt := env.now 0 }
      else r) }
    match env.fault 1 with
    | some c => (s, some (Err.db c))
    | none =>
      let tx2 := touchCustomer tx1 customerID (env.now 1)
      match env.fault 2 with
      | some c => (s, some (Err.db c))
      | none =>
        let recordLog : CheckinRecordLog :=
          { ID := nextID (tx2.CheckinRecordLogs.map CheckinRecordLog.ID)
            CustomerID := customerID
            CreatedAt := env.now 2 }
        ({ tx2 with CheckinRecordLogs := tx2.CheckinRecordLogs ++ [recordLog] }, none)

/-- Source `InvalidCheckin`: one statement outside any transaction; gorm stamps
`updated_at` on the rows it updates. -/
def InvalidCheckin (s : Store) (env : Env) (customerID : Nat) : Store × Option Err :=
  match env.fault 0 with
  | some c => (s, checkErr (some (Err.db c)))
  | none =>
    ({ s with CheckinRecords := s.CheckinRecords.map (fun r =>
        if r.Status ≠ DeleteStatus ∧ r.CustomerID = customerID then
          { r with Status := DeleteStatus, UpdatedAt := env.now 0 }
        else r) }, checkErr none)

/-- The update of `helpCheckinSQL`. -/
def helpCheckinUpdate (tx : Store) (now helpCustomerID checkRecordID : Nat) : Store :=
  { tx with CheckinRecords := tx.CheckinRecords.map (fun r =>
      if r.ID = checkRecordID then
        { r with Status := ActiveStatus, UpdatedAt := now,
                 HelpCheckinCustomerID := helpCustomerID }
      else r) }

/-- The update of `payCheckinSQL`. -/
def payCheckinUpdate (tx : Store) (now checkRecordID : Nat) : Store :=
  { tx with CheckinRecords := tx.CheckinRecords.map (fun r =>
      if r.ID = checkRecordID then { r with Status := ActiveStatus, UpdatedAt := now }
      else r) }

/-- The insert of an unread `HelpCheckinMessage` for a record, addressed to a customer. -/
def createMessage (tx : Store) (checkRecordID customerID : Nat) : Store :=
  { tx with HelpCheckinMessages := tx.HelpCheckinMessages ++
      [{ ID := nextID (tx.HelpCheckinMessages.map HelpCheckinMessage.ID)
         CheckinRecordID := checkRecordID
         CustomerID := customerID
         IsRead := UnRead }] }

/-- Source `HelpCheckin`: statement 0 is `helpCheckinSQL`, statement 1 the customer update,
statement 2 the insert of the message. -/
def HelpCheckin (s : Store) (env : Env) (checkRecordID customerID helpCustomerID : Nat) :
    Store × Option Err :=
  match env.fault 0 with
  | some c => (s, some (Err.db c))
  | none =>
    let tx1 := helpCheckinUpdate s (env.now 0) helpCustomerID checkRecordID
    match env.fault 1 with
    | some c => (s, some (Err.db c))
    | none =>
      let tx2 := touchCustomer tx1 customerID (env.now 1)
      match env.fault 2 with
      | some c => (s, some (Err.db c))
      | none => (createMessage tx2 checkRecordID customerID, none)

/-- The loop of `PayCheckin`: iteration `i` issues statement `2 * i` (the update of the
record) and statement `2 * i + 1` (the insert of its message). -/
def PayCheckin.loop (env : Env) (customerID : Nat) : Nat → List Nat → Store → Except Err Store
  | _, [], tx => Except.ok tx
  | i, id :: ids, tx =>
    match env.fault (2 * i) with
    | some c => Except.error (Err.db c)
    | none =>
      let tx1 := payCheckinUpdate tx (env.now i) id
      match env.fault (2 * i + 1) with
      | some c => Except.error (Err.db c)
      | none => PayCheckin.loop env customerID (i + 1) ids (createMessage tx1 id customerID)

/-- Source `PayCheckin`: after the loop, statement `2 * n` is the customer update and
statement `2 * n + 1` the insert of the payment record, linked to
`checkRecordIds[len(checkRecordIds)-1]`; that index is out of range for an empty batch. -/
def PayCheckin (s : Store) (env : Env) (checkRecordIds : List Nat) (customerID : Nat)
    (payRecord : WXPayRecord) : Store × Outcome :=
  let n := checkRecordIds.length
  match PayCheckin.loop env customerID 0 checkRecordIds s with
  | Except.error e => (s, Outcome.returned (some e))
  | Except.ok tx =>
    match env.fault (2 * n) with
    | some c => (s, Outcome.returned (some (Err.db c)))
    | none =>
      let tx1 := touchCustomer tx customerID (env.now n)
      match checkRecordIds[n - 1]? with
      | none => (s, Outcome.panicked)
      | some last =>
        match env.fault (2 * n + 1) with
        | some c => (s, Outcome.returned (some (Err.db c)))
        | none =>
          let p : WXPayRecord :=
            { ID := if payRecord.ID = 0 then nextID (tx1.WXPayRecords.map WXPayRecord.ID)
                    else payRecord.ID
              CheckinRecordID := last
              CreatedAt := env.now (n + 1) }
          ({ tx1 with WXPayRecords := tx1.WXPayRecords ++ [p] }, Outcome.returned none)

/-- Source `FailureIssueRecord`: statement 0 saves the record as Inactive, statement 1
loads the active owning merchant (a not-found is an error here: no `checkErr`),
statement 2 saves the merchant with `HasFailure += TotalReceive - Received`. -/
def FailureIssueRecord (s : Store) (env : Env) (issueRecord : IssueRecord) :
    Store × Option Err :=
  let issueRecord1 : IssueRecord := { issueRecord with Status := InactiveStatus }
  match checkErr ((env.fault 0).map Err.db) with
  | some e => (s, some e)
  | none =>
    let saved := gormSave IssueRecord.ID (fun r k => { r with ID := k }) s.IssueRecords
      issueRecord1
    let tx1 : Store := { s with IssueRecords := saved }
    let num := u64sub issueRecord1.TotalReceive issueRecord1.Received
    match gormFirst Merchant.ID
        (fun m => decide (m.ID = issueRecord1.MerchantID ∧ m.Status = ActiveStatus))
        tx1.Merchants (env.fault 1) with
    | (_, some e) => (s, some e)
    | (none, none) => (s, some Err.ErrRecordNotFound)
    | (some merchant, none) =>
      let merchant1 : Merchant :=
        { merchant with HasFailure := u64add merchant.HasFailure num }
      match env.fault 2 with
      | some c => (s, some (Err.db c))
      | none =>
        let savedM := gormSave Merchant.ID (fun m k => { m with ID := k }) tx1.Merchants
          merchant1
        ({ tx1 with Merchants := savedM }, none)

end dao

/-! ## Concrete stores and environments -/

/-- An environment in which no statement fails, the clock stands at 0 and a date is a
count of 24-hour days. -/
def quietEnv : Env := ⟨fun _ => 0, fun _ => none, 0, fun t => t / (24 * Hour)⟩

/-- The scenario of the spec: merchant 1, customer 7 and their active issue record with
totalReceive = 10 and received = 3. -/
def scenarioStore : Store :=
  { Store.empty with
    Merchants := [⟨1, ActiveStatus, 0, 0, 20, 0⟩]
    Customers := [⟨7, ActiveStatus, 0⟩]
    IssueRecords := [⟨4, 1, 7, ActiveStatus, 10, 3, 0⟩] }

/-- The scenario after the write-off of 5: received = 8, hasWriteOffNum = 25. -/
def scenarioStoreAfter : Store :=
  { Store.empty with
    Merchants := [⟨1, ActiveStatus, 0, 0, 25, 0⟩]
    Customers := [⟨7, ActiveStatus, 0⟩]
    IssueRecords := [⟨4, 1, 7, ActiveStatus, 10, 8, 0⟩] }

/-- Merchant 1 and customer 7 with two active issue records of the pair, both within
their quota: id 4 (totalReceive = 6, received = 1) and id 9 (totalReceive = 10,
received = 7). -/
def pairStore : Store :=
  { Store.empty with
    Merchants := [⟨1, ActiveStatus, 0, 0, 20, 0⟩]
    Customers := [⟨7, ActiveStatus, 0⟩]
    IssueRecords := [⟨4, 1, 7, ActiveStatus, 6, 1, 0⟩, ⟨9, 1, 7, ActiveStatus, 10, 7, 0⟩] }

/-- Merchant 1 and customer 7 with two active issue records of the pair, both within
their quota: id 4 (totalReceive = 10, received = 3) and id 9 (totalReceive = 5,
received = 0). -/
def quotaStore : Store :=
  { Store.empty with
    Merchants := [⟨1, ActiveStatus, 0, 0, 20, 0⟩]
    Customers := [⟨7, ActiveStatus, 0⟩]
    IssueRecords := [⟨4, 1, 7, ActiveStatus, 10, 3, 0⟩, ⟨9, 1, 7, ActiveStatus, 5, 0, 0⟩] }

/-- The scenario of the spec with merchant 1 disabled (`DisableMerchant` sets
`global.DeleteStatus`). -/
def disabledStore : Store :=
  { Store.empty with
    Merchants := [⟨1, DeleteStatus, 0, 0, 20, 0⟩]
    Customers := [⟨7, ActiveStatus, 0⟩]
    IssueRecords := [⟨4, 1, 7, ActiveStatus, 10, 3, 0⟩] }

/-- An environment in which exactly statement `k` fails, with driver error code 1. -/
def failAt (k : Nat) : Env :=
  ⟨fun _ => 0, fun j => if j = k then some 1 else none, 0, fun t => t / (24 * Hour)⟩

/-- The expiry scenario of the spec: an issue record with totalReceive = 10 and
received = 4 of merchant 1, whose hasFailure stands at 3. -/
def expiryStore : Store :=
  { Store.empty with
    Merchants := [⟨1, ActiveStatus, 0, 0, 20, 3⟩]
    IssueRecords := [⟨4, 1, 7, ActiveStatus, 10, 4, 0⟩] }

/-- A store holding customer 1 and the five-day cycle `InitCheckinRecords` creates for
that customer at clock reading 0. -/
def cycleStore : Store :=
  (dao.InitCheckinRecords { Store.empty with Customers := [⟨1, ActiveStatus, 0⟩] } quietEnv 1).1

/-- An environment in which no statement fails and the clock advances by one nanosecond
between two readings. -/
def tickEnv : Env := ⟨fun k => k, fun _ => none, 0, fun t => t / (24 * Hour)⟩

/-! ## The check-in lifecycle as a transition system -/

/-- The lifecycle operations on check-in records, with their arguments. -/
inductive Op
  | InitCheckinRecords (customerID : Nat)
  | ExecCheckin (customerID : Nat)
  | HelpCheckin (checkRecordID customerID helpCustomerID : Nat)
  | PayCheckin (checkRecordIds : List Nat) (customerID : Nat) (payRecord : WXPayRecord)
  | InvalidCheckin (customerID : Nat)

/-- The store a lifecycle operation leaves behind. -/
def Op.run (s : Store) (env : Env) : Op → Store
  | Op.InitCheckinRecords c => (dao.InitCheckinRecords s env c).1
  | Op.ExecCheckin c => (dao.ExecCheckin s env c).1
  | Op.HelpCheckin rid c h => (dao.HelpCheckin s env rid c h).1
  | Op.PayCheckin ids c p => (dao.PayCheckin s env ids c p).1
  | Op.InvalidCheckin c => (dao.InvalidCheckin s env c).1

/-- Whether the operation addresses a check-in record by this id (`WHERE id = ?`). -/
def Op.names : Op → Nat → Bool
  | Op.HelpCheckin rid _ _, k => decide (k = rid)
  | Op.PayCheckin ids _ _, k => decide (k ∈ ids)
  | _, _ => false

/-- The status moves the spec's data model allows: none, Inactive to Active, and
Inactive or Active to Deleted. -/
def LegalMove (a b : RowStatus) : Prop :=
  a = b ∨ (a = InactiveStatus ∧ b = ActiveStatus) ∨ (a ≠ DeleteStatus ∧ b = DeleteStatus)

instance (a b : RowStatus) : Decidable (LegalMove a b) := by
  unfold LegalMove
  infer_instance

/-- The cycle of customer 1 after `InvalidCheckin`: all five records Deleted. -/
def invalidatedStore : Store := Op.run cycleStore quietEnv (Op.InvalidCheckin 1)

/-! ## Before/after comparison of the check-in records -/

/-- The pairs (row before, row after) of the rows that differ, position by position. -/
def changedRecords (before after : List CheckinRecord) : List (CheckinRecord × CheckinRecord) :=
  (before.zip after).filter (fun p => decide (p.1 ≠ p.2))

/-- Customer 1 with two cycles created at the same clock reading: two Inactive records
carry today's date. -/
def doubleCycleStore : Store := Op.run cycleStore quietEnv (Op.InitCheckinRecords 1)

/-- The cycle of customer 1 after today's check-in: record 1 is Active. -/
def checkedStore : Store := Op.run cycleStore quietEnv (Op.ExecCheckin 1)

/-! ## dao: HasChecked -/

/-- Go zero value of `model.CheckinRecord`. -/
def CheckinRecord.zero : CheckinRecord := ⟨0, 0, 0, 0, InactiveStatus, 0, 0, 0⟩

namespace dao

/-- The rows selected by `hasCheckedSQL` with the arguments `HasChecked` passes
(customerID, `global.ActiveStatus`). -/
def hasCheckedSel (env : Env) (customerID : Nat) (r : CheckinRecord) : Bool :=
  decide (env.CURRENT_DATE = env.DATE r.NeedCheckinTime ∧ r.CustomerID = customerID
    ∧ r.Status = ActiveStatus)

/-- Source `HasChecked`: statement 0 is `Raw(hasCheckedSQL, ..).First(&checkinRecord)`; a
not-found is `false` with no error, any other error is returned, and a loaded record
answers `true` when its id is not 0. -/
def HasChecked (s : Store) (env : Env) (customerID : Nat) : Bool × Option Err :=
  match gormFirst CheckinRecord.ID (hasCheckedSel env customerID) s.CheckinRecords
      (env.fault 0) with
  | (_, some Err.ErrRecordNotFound) => (false, none)
  | (_, some e) => (false, some e)
  | (found, none) =>
    let checkinRecord := found.getD CheckinRecord.zero
    if checkinRecord.ID ≠ 0 then (true, none) else (false, none)

end dao

/-- Customer 1 with two cycles created on the same day, after today's check-in: the
day-1 records of both cycles (ids 1 and 6) are Active. -/
def doubleCheckedStore : Store := Op.run doubleCycleStore quietEnv (Op.ExecCheckin 1)

/-! ## Sequences of write-off calls -/

/-- The active issue record of the pair (merchantID, customerID) as the lookup of
`GetWriteOff` sees it: the matching row with the least id. -/
def activeIssueRecord (s : Store) (merchantID customerID : Nat) : Option IssueRecord :=
  minByKey IssueRecord.ID (s.IssueRecords.filter (fun r =>
    decide (r.MerchantID = merchantID ∧ r.CustomerID = customerID ∧ r.Status = ActiveStatus)))

/-- The store after one write-off call for the pair: `Service.ExecWriteOff` with its own
environment and num (a call that ends in a panic commits nothing). -/
def writeOffStep (merchantID customerID : Nat) (s : Store) (call : Env × Nat) : Store :=
  match Service.ExecWriteOff s call.1 ⟨merchantID, customerID, call.2⟩ with
  | some res => res.store
  | none => s

/-- The stores after each call of a sequence of write-off calls for the pair. -/
def writeOffTrace (merchantID customerID : Nat) : Store → List (Env × Nat) → List Store
  | _, [] => []
  | s, call :: rest =>
    writeOffStep merchantID customerID s call
      :: writeOffTrace merchantID customerID (writeOffStep merchantID customerID s call) rest

/-- What the claim asks of two consecutive stores: the active issue record of the pair is
the same row (same id, same totalReceive), its received did not go down, and it does not
exceed totalReceive. -/
def ReceivedStep (merchantID customerID : Nat) (a b : Store) : Prop :=
  ∃ ra rb, activeIssueRecord a merchantID customerID = some ra
    ∧ activeIssueRecord b merchantID customerID = some rb
    ∧ rb.ID = ra.ID ∧ rb.TotalReceive = ra.TotalReceive
    ∧ ra.Received ≤ rb.Received ∧ rb.Received ≤ rb.TotalReceive

/-- The store reached from `quotaStore` by a write-off of 5 (both active rows of the pair
get received = 8) and the expiry of record 4 (`FailureIssueRecord`): the only active row of
the pair is now id 9 with received = 8 above totalReceive = 5. -/
def expiredPairStore : Store :=
  (dao.FailureIssueRecord (writeOffStep 1 7 quotaStore (quietEnv, 5)) quietEnv
    ⟨4, 1, 7, ActiveStatus, 10, 8, 0⟩).1

/-! ## Lookups -/

theorem u64sub_eq_sub {a b : Nat} (hba : b ≤ a) (ha : a < 2 ^ 64) : u64sub a b = a - b := by
  unfold u64sub
  have hb : b % 2 ^ 64 = b := Nat.mod_eq_of_lt (by omega)
  rw [hb]
  omega

theorem minByKey_mem {α : Type} (key : α → Nat) :
    ∀ (l : List α) (x : α), minByKey key l = some x → x ∈ l := by
  intro l
  induction l with
  | nil => intro x h; simp [minByKey] at h
  | cons a t ih =>
    intro x h
    unfold minByKey at h
    cases hm : minByKey key t with
    | none =>
      rw [hm] at h
      simp at h
      simp [h]
    | some y =>
      rw [hm] at h
      simp only at h
      split at h
      · simp at h; simp [h]
      · simp at h; subst h; exact List.mem_cons_of_mem _ (ih y hm)

theorem gormFirst_some {α : Type} (key : α → Nat) (q : α → Bool) (tbl : List α)
    (f : Option Nat) (x : α) (h : (gormFirst key q tbl f).1 = some x) :
    x ∈ tbl ∧ q x = true := by
  unfold gormFirst at h
  cases f with
  | some c => simp at h
  | none =>
    simp only at h
    cases hm : minByKey key (tbl.filter q) with
    | none => rw [hm] at h; simp at h
    | some y =>
      rw [hm] at h
      simp at h
      subst h
      have := minByKey_mem key _ _ hm
      simpa [List.mem_filter] using this

theorem FindMerchant_found (s : Store) (f : Option Nat) (q : Merchant → Bool)
    (h : (dao.FindMerchant s f q).1.ID ≠ 0) :
    (dao.FindMerchant s f q).1 ∈ s.Merchants ∧ q (dao.FindMerchant s f q).1 = true := by
  unfold dao.FindMerchant at h ⊢
  cases hg : (gormFirst Merchant.ID q s.Merchants f).1 with
  | none => simp [hg, Merchant.zero] at h
  | some x => simpa [hg] using gormFirst_some _ _ _ _ _ hg

theorem FindCustomer_found (s : Store) (f : Option Nat) (q : Customer → Bool)
    (h : (dao.FindCustomer s f q).1.ID ≠ 0) :
    (dao.FindCustomer s f q).1 ∈ s.Customers ∧ q (dao.FindCustomer s f q).1 = true := by
  unfold dao.FindCustomer at h ⊢
  cases hg : (gormFirst Customer.ID q s.Customers f).1 with
  | none => simp [hg, Customer.zero] at h
  | some x => simpa [hg] using gormFirst_some _ _ _ _ _ hg

theorem FindIssueRecord_found (s : Store) (f : Option Nat) (q : IssueRecord → Bool)
    (h : (dao.FindIssueRecord s f q).1.ID ≠ 0) :
    (dao.FindIssueRecord s f q).1 ∈ s.IssueRecords ∧ q (dao.FindIssueRecord s f q).1 = true := by
  unfold dao.FindIssueRecord at h ⊢
  cases hg : (gormFirst IssueRecord.ID q s.IssueRecords f).1 with
  | none => simp [hg, IssueRecord.zero] at h
  | some x => simpa [hg] using gormFirst_some _ _ _ _ _ hg

/-- What a successful `GetWriteOff` says about the rows it returns. -/
theorem GetWriteOff_found (s : Store) (env : Env) (merchantID customerID : Nat)
    (resp : MerchantWriteOffRespVO) (code : APICode)
    (h : Service.GetWriteOff s env merchantID customerID = (some resp, code, none)) :
    (resp.Merchant ∈ s.Merchants ∧ resp.Merchant.ID = merchantID
        ∧ resp.Merchant.Status = ActiveStatus)
      ∧ (resp.Customer ∈ s.Customers ∧ resp.Customer.ID = customerID
        ∧ resp.Customer.Status = ActiveStatus)
      ∧ (resp.IssueRecord.ID ≠ 0 → resp.IssueRecord ∈ s.IssueRecords
        ∧ resp.IssueRecord.MerchantID = merchantID ∧ resp.IssueRecord.CustomerID = customerID
        ∧ resp.IssueRecord.Status = ActiveStatus) := by
  unfold Service.GetWriteOff at h
  simp only at h
  split at h
  · simp at h
  · rename_i hm
    split at h
    · simp at h
    · rename_i hc
      split at h
      · simp at h
      · simp only [Prod.mk.injEq, Option.some.injEq] at h
        obtain ⟨hresp, -, -⟩ := h
        subst hresp
        push_neg at hm hc
        have h1 := FindMerchant_found s (env.fault 0) _ hm.2
        have h2 := FindCustomer_found s (env.fault 1) _ hc.2
        refine ⟨?_, ?_, ?_⟩
        · simpa using h1
        · simpa using h2
        · intro h0
          have h3 := FindIssueRecord_found s (env.fault 2) _ h0
          simpa using h3
/-! ## Write-off -/

/-- When `GetWriteOff` returned a response whose issue record has received ≤ totalReceive,
every num above totalReceive - received is rejected with `ErrExecWriteOff` and the store
is left as it was. -/
theorem ExecWriteOff_rejects_of_lookup (s : Store) (env : Env) (vo : MerchantExecWriteOffVO)
    (resp : MerchantWriteOffRespVO) (code : APICode)
    (hlook : Service.GetWriteOff s env vo.MerchantID vo.CustomerID = (some resp, code, none))
    (hinv : resp.IssueRecord.Received ≤ resp.IssueRecord.TotalReceive)
    (hT : resp.IssueRecord.TotalReceive < 2 ^ 64)
    (hnum : resp.IssueRecord.TotalReceive - resp.IssueRecord.Received < vo.Num) :
    ∃ e, Service.ExecWriteOff s env vo = some ⟨s, none, APICode.ErrExecWriteOff, some e⟩ := by
  unfold Service.ExecWriteOff
  rw [hlook]
  simp only
  by_cases h0 : resp.IssueRecord.ID = 0
  · exact ⟨Err.noWelfare, by simp [h0]⟩
  · refine ⟨Err.wrongNum, ?_⟩
    rw [if_neg h0, u64sub_eq_sub hinv hT, if_pos hnum]

/-- The store `EcecWriteOff` commits when neither update fails. -/
theorem EcecWriteOff_ok (s : Store) (env : Env) (merchantID customerID hasRece writeOffNum : Nat)
    (h0 : env.fault 0 = none) (h1 : env.fault 1 = none) :
    dao.EcecWriteOff s env merchantID customerID hasRece writeOffNum =
      ({ s with
          IssueRecords := s.IssueRecords.map (fun r =>
            if r.MerchantID = merchantID ∧ r.CustomerID = customerID ∧ r.Status = ActiveStatus
            then { r with Received := hasRece } else r)
          Merchants := s.Merchants.map (fun m =>
            if m.ID = merchantID then { m with HasWriteOffNum := writeOffNum } else m) },
        none) := by
  unfold dao.EcecWriteOff
  rw [h0, h1]

/-- When `GetWriteOff` returned the merchant, the customer and a stored issue record,
num ≤ totalReceive - received and neither update fails, `ExecWriteOff` succeeds and
`EcecWriteOff` commits received = old received + num on every active issue record of the
pair and hasWriteOffNum = old value + num in 64-bit arithmetic on the merchant. -/
theorem ExecWriteOff_commits_of_lookup (s : Store) (env : Env) (vo : MerchantExecWriteOffVO)
    (resp : MerchantWriteOffRespVO) (code : APICode)
    (hlook : Service.GetWriteOff s env vo.MerchantID vo.CustomerID = (some resp, code, none))
    (hid : resp.IssueRecord.ID ≠ 0)
    (hT : resp.IssueRecord.TotalReceive < 2 ^ 64) (hR : resp.IssueRecord.Received < 2 ^ 64)
    (hnum : vo.Num ≤ resp.IssueRecord.TotalReceive - resp.IssueRecord.Received)
    (hf3 : env.fault 3 = none) (hf4 : env.fault 4 = none) :
    ∃ res, Service.ExecWriteOff s env vo = some res
      ∧ res.code = APICode.APICodeSuccess ∧ res.err = none
      ∧ { resp.IssueRecord with Received := resp.IssueRecord.Received + vo.Num }
          ∈ res.store.IssueRecords
      ∧ (∀ x ∈ res.store.IssueRecords, x.MerchantID = vo.MerchantID →
          x.CustomerID = vo.CustomerID → x.Status = ActiveStatus →
          x.Received = resp.IssueRecord.Received + vo.Num)
      ∧ { resp.Merchant with
            HasWriteOffNum := (resp.Merchant.HasWriteOffNum + vo.Num) % 2 ^ 64 }
          ∈ res.store.Merchants
      ∧ (∀ x ∈ res.store.Merchants, x.ID = vo.MerchantID →
          x.HasWriteOffNum = (resp.Merchant.HasWriteOffNum + vo.Num) % 2 ^ 64
          ∧ (resp.Merchant.HasWriteOffNum + vo.Num < 2 ^ 64 →
              x.HasWriteOffNum = resp.Merchant.HasWriteOffNum + vo.Num)) := by
  obtain ⟨⟨hmMem, hmID, -⟩, ⟨-, hcID, -⟩, hr⟩ :=
    GetWriteOff_found s env vo.MerchantID vo.CustomerID resp code hlook
  obtain ⟨hrMem, hrM, hrC, hrA⟩ := hr hid
  have hguard : ¬ u64sub resp.IssueRecord.TotalReceive resp.IssueRecord.Received < vo.Num := by
    by_cases hle : resp.IssueRecord.Received ≤ resp.IssueRecord.TotalReceive
    · rw [u64sub_eq_sub hle hT]; omega
    · have : vo.Num = 0 := by omega
      omega
  have hsum : u64add resp.IssueRecord.Received vo.Num = resp.IssueRecord.Received + vo.Num := by
    unfold u64add
    apply Nat.mod_eq_of_lt
    omega
  have hw := EcecWriteOff_ok s (env.skip 3) resp.Merchant.ID resp.Customer.ID
    (u64add resp.IssueRecord.Received vo.Num) (u64add resp.Merchant.HasWriteOffNum vo.Num)
    (by simpa [Env.skip] using hf3) (by simpa [Env.skip] using hf4)
  rw [hsum, hmID, hcID] at hw
  unfold Service.ExecWriteOff
  rw [hlook]
  simp only
  rw [if_neg hid, if_neg hguard]
  simp only [hsum, hmID, hcID, hw]
  refine ⟨_, rfl, rfl, rfl, ?_, ?_, ?_, ?_⟩
  · simp only [List.mem_map]
    exact ⟨resp.IssueRecord, hrMem, by simp [hrM, hrC, hrA]⟩
  · intro x hx hxM hxC hxA
    simp only [List.mem_map] at hx
    obtain ⟨y, -, hy⟩ := hx
    split at hy
    · subst hy; rfl
    · rename_i hn
      subst hy
      exact absurd ⟨hxM, hxC, hxA⟩ hn
  · simp only [List.mem_map]
    exact ⟨resp.Merchant, hmMem, by simp [hmID, u64add]⟩
  · intro x hx hxID
    simp only [List.mem_map] at hx
    obtain ⟨y, -, hy⟩ := hx
    split at hy
    · subst hy
      refine ⟨rfl, fun hfit => ?_⟩
      simp only [u64add]
      exact Nat.mod_eq_of_lt hfit
    · rename_i hn
      subst hy
      exact absurd hxID hn

/-- C3 (code at the failing input): in the scenario of the spec with num = 5, let the
update of the issue record succeed and the update of the merchant fail.  `EcecWriteOff`
rolls back and returns `nil`, and `ExecWriteOff` answers `APICodeSuccess` with a response,
although nothing was committed. -/
theorem EcecWriteOff_merchant_failure_returns_nil :
    dao.EcecWriteOff scenarioStore (failAt 1) 1 7 8 25 = (scenarioStore, none)
    ∧ dao.EcecWriteOff scenarioStore (failAt 0) 1 7 8 25 = (scenarioStore, some (Err.db 1))
    ∧ Service.ExecWriteOff scenarioStore (failAt 4) ⟨1, 7, 5⟩ =
        some ⟨scenarioStore,
              some ⟨⟨1, ActiveStatus, 0, 0, 20, 0⟩, ⟨7, ActiveStatus, 0⟩,
                    ⟨4, 1, 7, ActiveStatus, 10, 2, 0⟩, 5⟩,
              APICode.APICodeSuccess, none⟩ := by
  refine ⟨by decide, by decide, by decide⟩

/-! ## Expiry -/

theorem lt_nextID (ids : List Nat) : ∀ a ∈ ids, a < nextID ids := by
  induction ids with
  | nil => intro a h; simp at h
  | cons b t ih =>
    intro a h
    simp only [nextID, List.foldr_cons] at ih ⊢
    rcases List.mem_cons.1 h with h | h
    · subst h; omega
    · have := ih a h; omega

/-- The row `Save` writes is stored afterwards, and it is the only row under its key. -/
theorem gormSave_spec {α : Type} (key : α → Nat) (setKey : α → Nat → α) (tbl : List α) (x : α)
    (hset : ∀ a k, key (setKey a k) = k) :
    (if key x = 0 then setKey x (nextID (tbl.map key)) else x) ∈ gormSave key setKey tbl x
    ∧ ∀ z ∈ gormSave key setKey tbl x,
        key z = key (if key x = 0 then setKey x (nextID (tbl.map key)) else x) →
        z = (if key x = 0 then setKey x (nextID (tbl.map key)) else x) := by
  unfold gormSave
  by_cases h0 : key x = 0
  · simp only [if_pos h0]
    refine ⟨by simp, ?_⟩
    intro z hz hk
    rcases List.mem_append.1 hz with hz | hz
    · have := lt_nextID (tbl.map key) (key z) (List.mem_map_of_mem key hz)
      rw [hk, hset] at this
      omega
    · simpa using hz
  · simp only [if_neg h0]
    by_cases hany : (tbl.any (fun r => key r == key x)) = true
    · simp only [if_pos hany]
      constructor
      · simp only [List.any_eq_true, beq_iff_eq] at hany
        obtain ⟨r, hr, hrk⟩ := hany
        exact List.mem_map.2 ⟨r, hr, by simp [hrk]⟩
      · intro z hz hk
        obtain ⟨r, -, hr⟩ := List.mem_map.1 hz
        split at hr
        · exact hr.symm
        · rename_i hn
          subst hr
          exact absurd hk hn
    · simp only [if_neg hany]
      refine ⟨by simp, ?_⟩
      intro z hz hk
      rcases List.mem_append.1 hz with hz | hz
      · exfalso
        apply hany
        simp only [List.any_eq_true, beq_iff_eq]
        exact ⟨z, hz, hk⟩
      · simpa using hz

theorem minByKey_isSome {α : Type} (key : α → Nat) :
    ∀ (l : List α), l ≠ [] → ∃ x, minByKey key l = some x := by
  intro l
  cases l with
  | nil => intro h; exact absurd rfl h
  | cons a t =>
    intro _
    unfold minByKey
    cases minByKey key t with
    | none => exact ⟨a, rfl⟩
    | some y =>
      by_cases h : key a ≤ key y
      · exact ⟨a, by simp [h]⟩
      · exact ⟨y, by simp [h]⟩

/-- The two ways `FailureIssueRecord` ends: an error with the store rolled back, or no
error with both saves committed. -/
theorem FailureIssueRecord_cases (s : Store) (env : Env) (r : IssueRecord) :
    (∃ e, dao.FailureIssueRecord s env r = (s, some e)
      ∧ ¬ ((∀ k, k < 3 → env.fault k = none)
          ∧ ∃ m ∈ s.Merchants, m.ID = r.MerchantID ∧ m.Status = ActiveStatus))
    ∨ (∃ m, (∀ k, k < 3 → env.fault k = none)
      ∧ m ∈ s.Merchants ∧ m.ID = r.MerchantID ∧ m.Status = ActiveStatus
      ∧ dao.FailureIssueRecord s env r =
        ({ s with
            IssueRecords := gormSave IssueRecord.ID (fun r k => { r with ID := k })
              s.IssueRecords { r with Status := InactiveStatus }
            Merchants := gormSave Merchant.ID (fun m k => { m with ID := k }) s.Merchants
              { m with HasFailure := u64add m.HasFailure (u64sub r.TotalReceive r.Received) } },
          none)) := by
  unfold dao.FailureIssueRecord
  cases h0 : env.fault 0 with
  | some c =>
    left
    refine ⟨Err.db c, by simp [checkErr], ?_⟩
    rintro ⟨hf, -⟩
    rw [hf 0 (by omega)] at h0
    exact absurd h0 (by simp)
  | none =>
    simp only [Option.map_none', checkErr]
    cases h1 : env.fault 1 with
    | some c =>
      left
      refine ⟨Err.db c, by simp [gormFirst], ?_⟩
      rintro ⟨hf, -⟩
      rw [hf 1 (by omega)] at h1
      exact absurd h1 (by simp)
    | none =>
      simp only [gormFirst]
      cases hq : minByKey Merchant.ID (s.Merchants.filter
          (fun m => decide (m.ID = r.MerchantID ∧ m.Status = ActiveStatus))) with
      | none =>
        left
        refine ⟨Err.ErrRecordNotFound, rfl, ?_⟩
        rintro ⟨-, m, hm, hid, hst⟩
        have hne : s.Merchants.filter
            (fun m => decide (m.ID = r.MerchantID ∧ m.Status = ActiveStatus)) ≠ [] := by
          intro hnil
          have : m ∈ s.Merchants.filter
              (fun m => decide (m.ID = r.MerchantID ∧ m.Status = ActiveStatus)) := by
            simp [List.mem_filter, hm, hid, hst]
          rw [hnil] at this
          simp at this
        obtain ⟨x, hx⟩ := minByKey_isSome Merchant.ID _ hne
        rw [hx] at hq
        exact absurd hq (by simp)
      | some m =>
        have hm := minByKey_mem Merchant.ID _ _ hq
        simp only [List.mem_filter, decide_eq_true_eq] at hm
        cases h2 : env.fault 2 with
        | some c =>
          left
          refine ⟨Err.db c, rfl, ?_⟩
          rintro ⟨hf, -⟩
          rw [hf 2 (by omega)] at h2
          exact absurd h2 (by simp)
        | none =>
          right
          refine ⟨m, ?_, hm.1, hm.2.1, hm.2.2, rfl⟩
          intro k hk
          have : k = 0 ∨ k = 1 ∨ k = 2 := by omega
          rcases this with h | h | h <;> subst h <;> assumption

/-- C4: for an issue record with received ≤ totalReceive, `FailureIssueRecord` either
returns no error, and then the record is stored with status Inactive (the only row
under its id) and the owning active merchant is stored with hasFailure = prior value +
(totalReceive - received) in 64-bit arithmetic (exactly that sum whenever it fits in 64
bits), or returns an error, and then the store is the one before the call.  It returns no
error exactly when none of its three statements fails and the owning merchant is active. -/
theorem FailureIssueRecord_all_or_nothing (s : Store) (env : Env) (r : IssueRecord)
    (hinv : r.Received ≤ r.TotalReceive) (hT : r.TotalReceive < 2 ^ 64)
    (hkeys : ∀ m ∈ s.Merchants, m.ID ≠ 0) :
    ((dao.FailureIssueRecord s env r).2 = none ↔
        ((∀ k, k < 3 → env.fault k = none)
          ∧ ∃ m ∈ s.Merchants, m.ID = r.MerchantID ∧ m.Status = ActiveStatus))
    ∧ ((dao.FailureIssueRecord s env r).2 = none →
        (∃ x ∈ (dao.FailureIssueRecord s env r).1.IssueRecords,
            x = { r with Status := InactiveStatus, ID := x.ID }
            ∧ (r.ID ≠ 0 → x.ID = r.ID)
            ∧ ∀ y ∈ (dao.FailureIssueRecord s env r).1.IssueRecords, y.ID = x.ID → y = x)
        ∧ (∃ m ∈ s.Merchants, m.ID = r.MerchantID ∧ m.Status = ActiveStatus
            ∧ { m with HasFailure := (m.HasFailure + (r.TotalReceive - r.Received)) % 2 ^ 64 }
                ∈ (dao.FailureIssueRecord s env r).1.Merchants
            ∧ ∀ z ∈ (dao.FailureIssueRecord s env r).1.Merchants, z.ID = r.MerchantID →
                z.HasFailure = (m.HasFailure + (r.TotalReceive - r.Received)) % 2 ^ 64
                ∧ (m.HasFailure + (r.TotalReceive - r.Received) < 2 ^ 64 →
                    z.HasFailure = m.HasFailure + (r.TotalReceive - r.Received))))
    ∧ ((dao.FailureIssueRecord s env r).2 ≠ none → (dao.FailureIssueRecord s env r).1 = s) := by
  rcases FailureIssueRecord_cases s env r with ⟨e, hF, hnot⟩ | ⟨m, hf, hm, hmid, hmst, hF⟩
  · rw [hF]
    refine ⟨⟨fun h => by simp at h, fun h => absurd h hnot⟩, fun h => by simp at h, fun _ => rfl⟩
  · rw [u64sub_eq_sub hinv hT] at hF
    rw [hF]
    refine ⟨⟨fun _ => ⟨hf, m, hm, hmid, hmst⟩, fun _ => rfl⟩, fun _ => ⟨?_, ?_⟩,
      fun h => absurd rfl h⟩
    · have hs := gormSave_spec IssueRecord.ID (fun r k => { r with ID := k }) s.IssueRecords
        { r with Status := InactiveStatus } (fun _ _ => rfl)
      obtain ⟨hmem, huniq⟩ := hs
      refine ⟨_, hmem, ?_, ?_, fun y hy hk => huniq y hy hk⟩
      · by_cases h0 : r.ID = 0 <;> simp [h0]
      · intro h0
        simp [h0]
    · have hm0 : m.ID ≠ 0 := hkeys m hm
      have hs := gormSave_spec Merchant.ID (fun m k => { m with ID := k }) s.Merchants
        { m with HasFailure := u64add m.HasFailure (r.TotalReceive - r.Received) }
        (fun _ _ => rfl)
      simp only [if_neg hm0] at hs
      obtain ⟨hmem, huniq⟩ := hs
      refine ⟨m, hm, hmid, hmst, hmem, ?_⟩
      intro z hz hzid
      have hz := huniq z hz (by rw [hzid, hmid])
      subst hz
      refine ⟨rfl, fun hfit => ?_⟩
      simp only [u64add]
      exact Nat.mod_eq_of_lt hfit

/-- C4 witness: the expiry scenario of the spec (totalReceive = 10, received = 4 adds 6
to hasFailure = 3). -/
theorem FailureIssueRecord_all_or_nothing_witness :
    (dao.FailureIssueRecord expiryStore quietEnv ⟨4, 1, 7, ActiveStatus, 10, 4, 0⟩).2 = none
    ∧ (⟨4, 1, 7, InactiveStatus, 10, 4, 0⟩ : IssueRecord)
        ∈ (dao.FailureIssueRecord expiryStore quietEnv ⟨4, 1, 7, ActiveStatus, 10, 4, 0⟩).1.IssueRecords
    ∧ (⟨1, ActiveStatus, 0, 0, 20, 3 + 6⟩ : Merchant)
        ∈ (dao.FailureIssueRecord expiryStore quietEnv ⟨4, 1, 7, ActiveStatus, 10, 4, 0⟩).1.Merchants
    ∧ ((dao.FailureIssueRecord expiryStore (failAt 2) ⟨4, 1, 7, ActiveStatus, 10, 4, 0⟩).2 ≠ none →
        (dao.FailureIssueRecord expiryStore (failAt 2) ⟨4, 1, 7, ActiveStatus, 10, 4, 0⟩).1
          = expiryStore) :=
  ⟨by decide, by decide, by decide,
    (FailureIssueRecord_all_or_nothing expiryStore (failAt 2) ⟨4, 1, 7, ActiveStatus, 10, 4, 0⟩
      (by decide) (by decide) (by decide)).2.2⟩

/-! ## Paid make-up check-in -/

/-- The loop of `PayCheckin` when none of its statements fails: every record named in the
batch ends Active, no other record changes, and one unread message per id is appended. -/
theorem PayCheckin_loop_ok (env : Env) (customerID : Nat) :
    ∀ (ids : List Nat) (i : Nat) (tx : Store),
      (∀ j, j < 2 * ids.length → env.fault (2 * i + j) = none) →
      ∃ (tx' : Store) (g : CheckinRecord → CheckinRecord) (added : List HelpCheckinMessage),
        dao.PayCheckin.loop env customerID i ids tx = Except.ok tx'
        ∧ tx'.CheckinRecords = tx.CheckinRecords.map g
        ∧ (∀ r, (g r).ID = r.ID ∧ (r.ID ∈ ids → (g r).Status = ActiveStatus)
            ∧ (r.ID ∉ ids → g r = r)
            ∧ ((g r).Status = r.Status ∨ (g r).Status = ActiveStatus))
        ∧ tx'.HelpCheckinMessages = tx.HelpCheckinMessages ++ added
        ∧ added.map HelpCheckinMessage.CheckinRecordID = ids
        ∧ (∀ m ∈ added, m.CustomerID = customerID ∧ m.IsRead = UnRead)
        ∧ tx'.Customers = tx.Customers ∧ tx'.WXPayRecords = tx.WXPayRecords
        ∧ tx'.CheckinRecordLogs = tx.CheckinRecordLogs ∧ tx'.IssueRecords = tx.IssueRecords
        ∧ tx'.Merchants = tx.Merchants := by
  intro ids
  induction ids with
  | nil =>
    intro i tx _
    exact ⟨tx, id, [], rfl, by simp, by simp, by simp, rfl, by simp, rfl, rfl, rfl, rfl, rfl⟩
  | cons a t ih =>
    intro i tx hf
    have h0 : env.fault (2 * i) = none := by
      have := hf 0 (by simp only [List.length_cons]; omega)
      simpa using this
    have h1 : env.fault (2 * i + 1) = none := hf 1 (by simp only [List.length_cons]; omega)
    obtain ⟨tx', g, added, hloop, hrec, hg, hmsg, hadd, hall, hC, hP, hL, hI, hM⟩ :=
      ih (i + 1) (dao.createMessage (dao.payCheckinUpdate tx (env.now i) a) a customerID)
        (by
          intro j hj
          have := hf (j + 2) (by simp only [List.length_cons]; omega)
          rw [← this]
          congr 1
          omega)
    refine ⟨tx', g ∘ (fun r => if r.ID = a then
        { r with Status := ActiveStatus, UpdatedAt := env.now i } else r),
      (⟨nextID (tx.HelpCheckinMessages.map HelpCheckinMessage.ID), a, customerID, UnRead⟩
        : HelpCheckinMessage) :: added, ?_, ?_, ?_, ?_, ?_, ?_, ?_, ?_, ?_, ?_, ?_⟩
    · simp only [dao.PayCheckin.loop, h0, h1]
      exact hloop
    · rw [hrec]
      simp [dao.createMessage, dao.payCheckinUpdate, List.map_map]
    · intro r
      by_cases hra : r.ID = a
      · have hga := hg { r with Status := ActiveStatus, UpdatedAt := env.now i }
        simp only [Function.comp, if_pos hra]
        refine ⟨hga.1, fun _ => ?_, fun hn => absurd (by simp [hra]) hn, Or.inr ?_⟩
        · rcases hga.2.2.2 with h | h
          · rw [h]
          · exact h
        · rcases hga.2.2.2 with h | h
          · rw [h]
          · exact h
      · have hgr := hg r
        simp only [Function.comp, if_neg hra]
        refine ⟨hgr.1, fun hmem => ?_, fun hn => ?_, hgr.2.2.2⟩
        · rcases List.mem_cons.1 hmem with h | h
          · exact absurd h hra
          · exact hgr.2.1 h
        · exact hgr.2.2.1 (fun h => hn (List.mem_cons_of_mem _ h))
    · rw [hmsg]
      simp [dao.createMessage, dao.payCheckinUpdate]
    · simp [hadd]
    · intro m hm
      rcases List.mem_cons.1 hm with h | h
      · subst h; exact ⟨rfl, rfl⟩
      · exact hall m h
    · rw [hC]; rfl
    · rw [hP]; rfl
    · rw [hL]; rfl
    · rw [hI]; rfl
    · rw [hM]; rfl

/-- The loop of `PayCheckin` returns an error as soon as one of its statements fails. -/
theorem PayCheckin_loop_err (env : Env) (customerID : Nat) :
    ∀ (ids : List Nat) (i : Nat) (tx : Store),
      (∃ j, j < 2 * ids.length ∧ env.fault (2 * i + j) ≠ none) →
      ∃ e, dao.PayCheckin.loop env customerID i ids tx = Except.error e := by
  intro ids
  induction ids with
  | nil => rintro i tx ⟨j, hj, -⟩; simp at hj
  | cons a t ih =>
    rintro i tx ⟨j, hj, hne⟩
    simp only [dao.PayCheckin.loop]
    cases h0 : env.fault (2 * i) with
    | some c => exact ⟨_, rfl⟩
    | none =>
      cases h1 : env.fault (2 * i + 1) with
      | some c => exact ⟨_, rfl⟩
      | none =>
        simp only
        apply ih
        have hj2 : 2 ≤ j := by
          rcases Nat.lt_or_ge j 2 with h | h
          · exfalso
            have : j = 0 ∨ j = 1 := by omega
            rcases this with h | h <;> subst h
            · exact hne (by simpa using h0)
            · exact hne h1
          · exact h
        refine ⟨j - 2, by simp only [List.length_cons] at hj; omega, ?_⟩
        have : 2 * (i + 1) + (j - 2) = 2 * i + j := by omega
        rw [this]
        exact hne

/-- C5: for a non-empty batch, `PayCheckin` is all-or-nothing.  When none of its
`2 * n + 2` statements fails it returns no error, every record named in the batch is
Active and the other records are untouched, one unread message per id of the batch,
addressed to customerID, has been appended, and one payment record linked to the last id
of the batch has been appended.  When any of these statements fails it returns an error
and the store is the one before the call. -/
theorem PayCheckin_all_or_nothing (s : Store) (env : Env) (ids : List Nat) (customerID : Nat)
    (payRecord : WXPayRecord) (hne : ids ≠ []) :
    ((∀ k, k < 2 * ids.length + 2 → env.fault k = none) →
      (dao.PayCheckin s env ids customerID payRecord).2 = Outcome.returned none
      ∧ (∃ g : CheckinRecord → CheckinRecord,
          (dao.PayCheckin s env ids customerID payRecord).1.CheckinRecords
            = s.CheckinRecords.map g
          ∧ ∀ r, (g r).ID = r.ID ∧ (r.ID ∈ ids → (g r).Status = ActiveStatus)
              ∧ (r.ID ∉ ids → g r = r))
      ∧ (∃ added : List HelpCheckinMessage,
          (dao.PayCheckin s env ids customerID payRecord).1.HelpCheckinMessages
            = s.HelpCheckinMessages ++ added
          ∧ added.map HelpCheckinMessage.CheckinRecordID = ids
          ∧ ∀ m ∈ added, m.CustomerID = customerID ∧ m.IsRead = UnRead)
      ∧ (∃ q : WXPayRecord,
          (dao.PayCheckin s env ids customerID payRecord).1.WXPayRecords
            = s.WXPayRecords ++ [q]
          ∧ ids.getLast? = some q.CheckinRecordID))
    ∧ ((∃ k, k < 2 * ids.length + 2 ∧ env.fault k ≠ none) →
      ∃ e, dao.PayCheckin s env ids customerID payRecord = (s, Outcome.returned (some e))) := by
  have hlen : 0 < ids.length := List.length_pos.2 hne
  have hlast : ∃ last, ids[ids.length - 1]? = some last ∧ ids.getLast? = some last := by
    have hlt : ids.length - 1 < ids.length := by omega
    refine ⟨ids[ids.length - 1], List.getElem?_eq_getElem hlt, ?_⟩
    rw [List.getLast?_eq_getElem?, List.getElem?_eq_getElem hlt]
  obtain ⟨last, hidx, hgl⟩ := hlast
  constructor
  · intro hf
    obtain ⟨tx', g, added, hloop, hrec, hg, hmsg, hadd, hall, -, hP, -, -, -⟩ :=
      PayCheckin_loop_ok env customerID ids 0 s (fun j hj => by
        have := hf j (by omega)
        simpa using this)
    have h2n : env.fault (2 * ids.length) = none := hf _ (by omega)
    have h2n1 : env.fault (2 * ids.length + 1) = none := hf _ (by omega)
    have hres : dao.PayCheckin s env ids customerID payRecord =
        ({ dao.touchCustomer tx' customerID (env.now ids.length) with
            WXPayRecords := (dao.touchCustomer tx' customerID (env.now ids.length)).WXPayRecords
              ++ [⟨if payRecord.ID = 0 then
                    nextID ((dao.touchCustomer tx' customerID
                      (env.now ids.length)).WXPayRecords.map WXPayRecord.ID)
                  else payRecord.ID, last, env.now (ids.length + 1)⟩] },
          Outcome.returned none) := by
      simp only [dao.PayCheckin, hloop, h2n, h2n1, hidx]
    rw [hres]
    refine ⟨rfl, ⟨g, hrec, fun r => ⟨(hg r).1, (hg r).2.1, (hg r).2.2.1⟩⟩,
      ⟨added, hmsg, hadd, hall⟩,
      ⟨⟨if payRecord.ID = 0 then
            nextID ((dao.touchCustomer tx' customerID
              (env.now ids.length)).WXPayRecords.map WXPayRecord.ID)
          else payRecord.ID, last, env.now (ids.length + 1)⟩, ?_, hgl⟩⟩
    simp only [dao.touchCustomer, hP]
  · rintro ⟨k, hk, hkf⟩
    simp only [dao.PayCheckin]
    cases hloop : dao.PayCheckin.loop env customerID 0 ids s with
    | error e => exact ⟨e, rfl⟩
    | ok tx =>
      simp only
      cases h2n : env.fault (2 * ids.length) with
      | some c => exact ⟨_, rfl⟩
      | none =>
        simp only [hidx]
        cases h2n1 : env.fault (2 * ids.length + 1) with
        | some c => exact ⟨_, rfl⟩
        | none =>
          exfalso
          rcases Nat.lt_or_ge k (2 * ids.length) with hlt | hge
          · obtain ⟨e, he⟩ := PayCheckin_loop_err env customerID ids 0 s
              ⟨k, hlt, by simpa using hkf⟩
            rw [he] at hloop
            exact absurd hloop (by simp)
          · have : k = 2 * ids.length ∨ k = 2 * ids.length + 1 := by omega
            rcases this with h | h <;> subst h
            · exact hkf h2n
            · exact hkf h2n1

/-- C5 witness: a batch of three record ids of the cycle of customer 1, once with no
failure and once with the insert of the second message failing. -/
theorem PayCheckin_all_or_nothing_witness :
    (dao.PayCheckin cycleStore quietEnv [2, 3, 4] 1 ⟨0, 0, 0⟩).2 = Outcome.returned none
    ∧ (dao.PayCheckin cycleStore quietEnv [2, 3, 4] 1 ⟨0, 0, 0⟩).1.CheckinRecords.map
        (fun r => (r.ID, r.Status))
        = [(1, InactiveStatus), (2, ActiveStatus), (3, ActiveStatus), (4, ActiveStatus),
           (5, InactiveStatus)]
    ∧ (dao.PayCheckin cycleStore quietEnv [2, 3, 4] 1 ⟨0, 0, 0⟩).1.HelpCheckinMessages
        = [⟨1, 2, 1, UnRead⟩, ⟨2, 3, 1, UnRead⟩, ⟨3, 4, 1, UnRead⟩]
    ∧ (dao.PayCheckin cycleStore quietEnv [2, 3, 4] 1 ⟨0, 0, 0⟩).1.WXPayRecords = [⟨1, 4, 0⟩]
    ∧ ∃ e, dao.PayCheckin cycleStore (failAt 3) [2, 3, 4] 1 ⟨0, 0, 0⟩
        = (cycleStore, Outcome.returned (some e)) :=
  ⟨by decide, by decide, by decide, by decide,
    (PayCheckin_all_or_nothing cycleStore (failAt 3) [2, 3, 4] 1 ⟨0, 0, 0⟩ (by decide)).2
      ⟨3, by decide, by decide⟩⟩

/-! ## Cycle creation -/

/-- C6 (as stated, refuted): with a clock that advances by one nanosecond per reading,
the five records get the times 2, 5 + 24h, 8 + 48h, 11 + 72h, 14 + 96h: consecutive times
differ by 24h + 3ns, and no call time T gives NeedCheckinTime = T + (d-1) * 24h for all
five days. -/
theorem InitCheckinRecords_times_drift :
    (dao.InitCheckinRecords Store.empty tickEnv 1).2.1.map
        (fun res => res.map (fun r => (r.Day, r.NeedCheckinTime)))
      = some [(1, 2), (2, 5 + 24 * Hour), (3, 8 + 2 * (24 * Hour)), (4, 11 + 3 * (24 * Hour)),
              (5, 14 + 4 * (24 * Hour))]
    ∧ ¬ ∃ T, ∀ res, (dao.InitCheckinRecords Store.empty tickEnv 1).2.1 = some res →
        ∀ r ∈ res, r.NeedCheckinTime = T + (r.Day - 1) * (24 * Hour) := by
  constructor
  · decide
  · rintro ⟨T, h⟩
    have h1 := h [⟨1, 1, 1, 2, InactiveStatus, 0, 1, 0⟩,
      ⟨2, 1, 2, 5 + 24 * Hour, InactiveStatus, 0, 4, 3⟩,
      ⟨3, 1, 3, 8 + 2 * (24 * Hour), InactiveStatus, 0, 7, 6⟩,
      ⟨4, 1, 4, 11 + 3 * (24 * Hour), InactiveStatus, 0, 10, 9⟩,
      ⟨5, 1, 5, 14 + 4 * (24 * Hour), InactiveStatus, 0, 13, 12⟩] (by decide)
    have ha := h1 ⟨1, 1, 1, 2, InactiveStatus, 0, 1, 0⟩ (by simp)
    have hb := h1 ⟨2, 1, 2, 5 + 24 * Hour, InactiveStatus, 0, 4, 3⟩ (by simp)
    simp only [Hour] at ha hb
    omega

/-- The loop of `InitCheckinRecords` when none of its inserts fails: iteration `j` appends
one Inactive record of the customer with Day = j + 1 and
NeedCheckinTime = (its own clock reading) + j * 24h. -/
theorem InitCheckinRecords_loop_ok (env : Env) (customerID : Nat) :
    ∀ (n i : Nat) (tx : Store) (res : List CheckinRecord),
      (∀ k, k < n → env.fault (i + k) = none) →
      ∃ added : List CheckinRecord,
        dao.InitCheckinRecords.loop env customerID n i tx res
          = Except.ok ({ tx with CheckinRecords := tx.CheckinRecords ++ added }, res ++ added)
        ∧ added.map CheckinRecord.Day = (List.range' i n).map (fun j => u64add j 1)
        ∧ added.map CheckinRecord.NeedCheckinTime
            = (List.range' i n).map (fun j => env.now (3 * j + 2) + j * 24 * Hour)
        ∧ ∀ r ∈ added, r.Status = InactiveStatus ∧ r.CustomerID = customerID := by
  intro n
  induction n with
  | zero =>
    intro i tx res _
    exact ⟨[], by simp [dao.InitCheckinRecords.loop], rfl, rfl, by simp⟩
  | succ n ih =>
    intro i tx res hf
    have h0 : env.fault i = none := by simpa using hf 0 (by omega)
    obtain ⟨added, hloop, hday, htime, hall⟩ := ih (i + 1)
      { tx with CheckinRecords := tx.CheckinRecords ++
          [⟨nextID (tx.CheckinRecords.map CheckinRecord.ID), customerID, u64add i 1,
            env.now (3 * i + 2) + i * 24 * Hour, InactiveStatus, 0, env.now (3 * i + 1),
            env.now (3 * i)⟩] }
      (res ++ [⟨nextID (tx.CheckinRecords.map CheckinRecord.ID), customerID, u64add i 1,
            env.now (3 * i + 2) + i * 24 * Hour, InactiveStatus, 0, env.now (3 * i + 1),
            env.now (3 * i)⟩])
      (fun k hk => by
        have := hf (k + 1) (by omega)
        rw [← this]
        congr 1
        omega)
    refine ⟨(⟨nextID (tx.CheckinRecords.map CheckinRecord.ID), customerID, u64add i 1,
            env.now (3 * i + 2) + i * 24 * Hour, InactiveStatus, 0, env.now (3 * i + 1),
            env.now (3 * i)⟩ : CheckinRecord) :: added, ?_, ?_, ?_, ?_⟩
    · simp only [dao.InitCheckinRecords.loop, h0]
      rw [hloop]
      simp
    · simp [List.range'_succ, hday]
    · simp [List.range'_succ, htime]
    · intro r hr
      rcases List.mem_cons.1 hr with h | h
      · subst h; exact ⟨rfl, rfl⟩
      · exact hall r h

/-- C6 (amended): when no insert fails, `InitCheckinRecords` stores and returns exactly five
records in day order, Day = 1..5, all Inactive, all of customerID; the record of day d has
NeedCheckinTime = (the clock reading taken for that record) + (d-1) * 24h, the readings
being taken in day order.  With a clock that does not go backwards, consecutive times
differ by at least 24h; with a clock that stands at T during the call they are
T + (d-1) * 24h. -/
theorem InitCheckinRecords_cycle (s : Store) (env : Env) (customerID : Nat)
    (hf : ∀ k, k < 5 → env.fault k = none) :
    ∃ res, dao.InitCheckinRecords s env customerID
        = ({ s with CheckinRecords := s.CheckinRecords ++ res }, some res, none)
      ∧ res.map CheckinRecord.Day = [1, 2, 3, 4, 5]
      ∧ (∀ r ∈ res, r.Status = InactiveStatus ∧ r.CustomerID = customerID)
      ∧ res.map CheckinRecord.NeedCheckinTime
          = [env.now 2, env.now 5 + 24 * Hour, env.now 8 + 2 * (24 * Hour),
             env.now 11 + 3 * (24 * Hour), env.now 14 + 4 * (24 * Hour)]
      ∧ ((∀ j k, j ≤ k → env.now j ≤ env.now k) →
          List.Chain' (fun a b => a + 24 * Hour ≤ b) (res.map CheckinRecord.NeedCheckinTime))
      ∧ (∀ T, (∀ k, env.now k = T) →
          res.map CheckinRecord.NeedCheckinTime
            = [T, T + 24 * Hour, T + 2 * (24 * Hour), T + 3 * (24 * Hour),
               T + 4 * (24 * Hour)]) := by
  obtain ⟨res, hloop, hday, htime, hall⟩ :=
    InitCheckinRecords_loop_ok env customerID 5 0 s [] (fun k hk => by simpa using hf k hk)
  have htime5 : res.map CheckinRecord.NeedCheckinTime
      = [env.now 2, env.now 5 + 24 * Hour, env.now 8 + 2 * (24 * Hour),
         env.now 11 + 3 * (24 * Hour), env.now 14 + 4 * (24 * Hour)] := by
    rw [htime]
    simp [List.range', Nat.mul_assoc]
  refine ⟨res, ?_, ?_, hall, htime5, ?_, ?_⟩
  · simp only [dao.InitCheckinRecords, hloop, List.nil_append]
  · rw [hday]
    simp [List.range', u64add]
  · intro hmono
    have m1 := hmono 2 5 (by omega)
    have m2 := hmono 5 8 (by omega)
    have m3 := hmono 8 11 (by omega)
    have m4 := hmono 11 14 (by omega)
    rw [htime5]
    simp only [List.chain'_cons, List.chain'_singleton, and_true]
    refine ⟨?_, ?_, ?_, ?_⟩ <;> simp only [Hour] <;> omega
  · intro T hT
    rw [htime5]
    simp only [hT]

/-- C6 witness: the cycle of customer 1 created in the empty store under the ticking clock. -/
theorem InitCheckinRecords_cycle_witness :
    ∃ res, dao.InitCheckinRecords Store.empty tickEnv 1
        = ({ Store.empty with CheckinRecords := Store.empty.CheckinRecords ++ res }, some res, none)
      ∧ res.map CheckinRecord.Day = [1, 2, 3, 4, 5]
      ∧ (∀ r ∈ res, r.Status = InactiveStatus ∧ r.CustomerID = 1)
      ∧ res.map CheckinRecord.NeedCheckinTime
          = [tickEnv.now 2, tickEnv.now 5 + 24 * Hour, tickEnv.now 8 + 2 * (24 * Hour),
             tickEnv.now 11 + 3 * (24 * Hour), tickEnv.now 14 + 4 * (24 * Hour)]
      ∧ ((∀ j k, j ≤ k → tickEnv.now j ≤ tickEnv.now k) →
          List.Chain' (fun a b => a + 24 * Hour ≤ b) (res.map CheckinRecord.NeedCheckinTime))
      ∧ (∀ T, (∀ k, tickEnv.now k = T) →
          res.map CheckinRecord.NeedCheckinTime
            = [T, T + 24 * Hour, T + 2 * (24 * Hour), T + 3 * (24 * Hour),
               T + 4 * (24 * Hour)]) :=
  InitCheckinRecords_cycle Store.empty tickEnv 1 (fun _ _ => rfl)

/-! ## Status moves -/

theorem getElem?_map_append {α : Type} (l extra : List α) (g : α → α) (i : Nat) (r : α)
    (h : l[i]? = some r) : (l.map g ++ extra)[i]? = some (g r) := by
  have hi : i < l.length := by
    by_contra hn
    rw [List.getElem?_eq_none (by omega)] at h
    exact absurd h (by simp)
  rw [List.getElem?_append_left (by simpa using hi), List.getElem?_map, h]
  rfl

/-- The loop of `InitCheckinRecords` only appends check-in records. -/
theorem InitCheckinRecords_loop_appends (env : Env) (customerID : Nat) :
    ∀ (n i : Nat) (tx : Store) (res : List CheckinRecord) (p : Store × List CheckinRecord),
      dao.InitCheckinRecords.loop env customerID n i tx res = Except.ok p →
      ∃ added : List CheckinRecord, p.1.CheckinRecords = tx.CheckinRecords ++ added := by
  intro n
  induction n with
  | zero =>
    intro i tx res p h
    simp only [dao.InitCheckinRecords.loop, Except.ok.injEq] at h
    subst h
    exact ⟨[], by simp⟩
  | succ n ih =>
    intro i tx res p h
    simp only [dao.InitCheckinRecords.loop] at h
    cases h0 : env.fault i with
    | some c =>
      rw [h0] at h
      exact absurd h (by simp)
    | none =>
      rw [h0] at h
      obtain ⟨added, hadd⟩ := ih _ _ _ _ h
      exact ⟨_, by rw [hadd, List.append_assoc]⟩

/-- The records `PayCheckin` leaves behind, whatever fails: each keeps its id, a record
not named in the batch is untouched, and a status either stays or becomes Active. -/
theorem PayCheckin_records (s : Store) (env : Env) (ids : List Nat) (customerID : Nat)
    (payRecord : WXPayRecord) :
    ∃ g : CheckinRecord → CheckinRecord,
      (dao.PayCheckin s env ids customerID payRecord).1.CheckinRecords = s.CheckinRecords.map g
      ∧ ∀ r, (g r).ID = r.ID ∧ (r.ID ∉ ids → g r = r)
          ∧ ((g r).Status = r.Status ∨ (g r).Status = ActiveStatus) := by
  have hid : ∃ g : CheckinRecord → CheckinRecord,
      s.CheckinRecords = s.CheckinRecords.map g
      ∧ ∀ r, (g r).ID = r.ID ∧ (r.ID ∉ ids → g r = r)
          ∧ ((g r).Status = r.Status ∨ (g r).Status = ActiveStatus) :=
    ⟨id, by simp, fun r => ⟨rfl, fun _ => rfl, Or.inl rfl⟩⟩
  simp only [dao.PayCheckin]
  cases hloop : dao.PayCheckin.loop env customerID 0 ids s with
  | error e => exact hid
  | ok tx =>
    simp only
    cases h2n : env.fault (2 * ids.length) with
    | some c => exact hid
    | none =>
      simp only
      cases hidx : ids[ids.length - 1]? with
      | none => exact hid
      | some last =>
        simp only
        cases h2n1 : env.fault (2 * ids.length + 1) with
        | some c => exact hid
        | none =>
          simp only [dao.touchCustomer]
          by_cases hf : ∀ j, j < 2 * ids.length → env.fault (2 * 0 + j) = none
          · obtain ⟨tx', g, added, hok, hrec, hg, -⟩ :=
              PayCheckin_loop_ok env customerID ids 0 s hf
            rw [hok] at hloop
            cases hloop
            exact ⟨g, hrec, fun r => ⟨(hg r).1, (hg r).2.2.1, (hg r).2.2.2⟩⟩
          · push_neg at hf
            obtain ⟨e, he⟩ := PayCheckin_loop_err env customerID ids 0 s hf
            rw [he] at hloop
            exact absurd hloop (by simp)

/-- C7 (as stated, refuted): from the cycle of customer 1 (`InitCheckinRecords`), then
`InvalidCheckin`, all five records are Deleted; `HelpCheckin` on record 1 then moves it
from Deleted to Active, a move the claim excludes. -/
theorem HelpCheckin_revives_deleted :
    cycleStore.CheckinRecords.map (fun r => (r.ID, r.Status))
      = [(1, InactiveStatus), (2, InactiveStatus), (3, InactiveStatus), (4, InactiveStatus),
         (5, InactiveStatus)]
    ∧ invalidatedStore.CheckinRecords.map (fun r => (r.ID, r.Status))
      = [(1, DeleteStatus), (2, DeleteStatus), (3, DeleteStatus), (4, DeleteStatus),
         (5, DeleteStatus)]
    ∧ (Op.run invalidatedStore quietEnv (Op.HelpCheckin 1 1 2)).CheckinRecords.map
        (fun r => (r.ID, r.Status))
      = [(1, ActiveStatus), (2, DeleteStatus), (3, DeleteStatus), (4, DeleteStatus),
         (5, DeleteStatus)]
    ∧ ¬ LegalMove DeleteStatus ActiveStatus := by
  refine ⟨by decide, by decide, by decide, by decide⟩

/-- C7 (amended): under every lifecycle operation and from every store state, a stored
check-in record stays in place with its id, and its status either makes a legal move
(none, Inactive to Active, Inactive or Active to Deleted) or, when `HelpCheckin` or
`PayCheckin` names the record by id, moves from Deleted to Active.  So no operation moves a
record back to Inactive, and `InitCheckinRecords`, `ExecCheckin` and `InvalidCheckin` never
change a Deleted record. -/
theorem lifecycle_status_moves (s : Store) (env : Env) (op : Op) (i : Nat) (r : CheckinRecord)
    (h : s.CheckinRecords[i]? = some r) :
    ∃ r', (op.run s env).CheckinRecords[i]? = some r' ∧ r'.ID = r.ID
      ∧ (LegalMove r.Status r'.Status
          ∨ (r.Status = DeleteStatus ∧ r'.Status = ActiveStatus ∧ op.names r.ID = true))
      ∧ (r'.Status = InactiveStatus → r.Status = InactiveStatus) := by
  have key : ∀ (recs : List CheckinRecord) (g : CheckinRecord → CheckinRecord)
      (extra : List CheckinRecord), recs = s.CheckinRecords.map g ++ extra →
      (∀ x, (g x).ID = x.ID ∧ (LegalMove x.Status (g x).Status
          ∨ (x.Status = DeleteStatus ∧ (g x).Status = ActiveStatus ∧ op.names x.ID = true))) →
      ∃ r', recs[i]? = some r' ∧ r'.ID = r.ID
        ∧ (LegalMove r.Status r'.Status
            ∨ (r.Status = DeleteStatus ∧ r'.Status = ActiveStatus ∧ op.names r.ID = true))
        ∧ (r'.Status = InactiveStatus → r.Status = InactiveStatus) := by
    intro recs g extra hrecs hg
    refine ⟨g r, ?_, (hg r).1, (hg r).2, ?_⟩
    · rw [hrecs]
      exact getElem?_map_append _ _ _ _ _ h
    · intro hin
      rcases (hg r).2 with hl | ⟨-, ha, -⟩
      · rcases hl with hl | ⟨hl, -⟩ | ⟨-, hl⟩
        · rw [hl]; exact hin
        · exact hl
        · rw [hl] at hin; exact absurd hin (by decide)
      · rw [ha] at hin; exact absurd hin (by decide)
  have same : ∀ x : CheckinRecord, (id x).ID = x.ID ∧ (LegalMove x.Status (id x).Status
      ∨ (x.Status = DeleteStatus ∧ (id x).Status = ActiveStatus ∧ op.names x.ID = true)) :=
    fun x => ⟨rfl, Or.inl (Or.inl rfl)⟩
  cases op with
  | InitCheckinRecords c =>
    simp only [Op.run, dao.InitCheckinRecords]
    cases hloop : dao.InitCheckinRecords.loop env c 5 0 s [] with
    | error e => exact key _ id [] (by simp) same
    | ok p =>
      obtain ⟨added, hadd⟩ := InitCheckinRecords_loop_appends env c 5 0 s [] p hloop
      exact key _ id added (by simp [hadd]) same
  | ExecCheckin c =>
    simp only [Op.run, dao.ExecCheckin]
    cases env.fault 0 with
    | some e => exact key _ id [] (by simp) same
    | none =>
      cases env.fault 1 with
      | some e => exact key _ id [] (by simp) same
      | none =>
        cases env.fault 2 with
        | some e => exact key _ id [] (by simp) same
        | none =>
          refine key _ (fun r => if dao.execCheckinSel env c r then
            { r with Status := ActiveStatus, UpdatedAt := env.now 0 } else r) []
            (by simp [dao.touchCustomer]) ?_
          intro x
          by_cases hsel : dao.execCheckinSel env c x = true
          · simp only [if_pos hsel]
            refine ⟨by trivial, Or.inl (Or.inr (Or.inl ⟨?_, rfl⟩))⟩
            simp only [dao.execCheckinSel, decide_eq_true_eq] at hsel
            exact hsel.2.1
          · simp only [if_neg hsel]
            exact ⟨by trivial, Or.inl (Or.inl rfl)⟩
  | HelpCheckin rid c hc =>
    simp only [Op.run, dao.HelpCheckin]
    cases env.fault 0 with
    | some e => exact key _ id [] (by simp) same
    | none =>
      cases env.fault 1 with
      | some e => exact key _ id [] (by simp) same
      | none =>
        cases env.fault 2 with
        | some e => exact key _ id [] (by simp) same
        | none =>
          refine key _ (fun r => if r.ID = rid then
            { r with Status := ActiveStatus, UpdatedAt := env.now 0,
                     HelpCheckinCustomerID := hc } else r) []
            (by simp [dao.touchCustomer, dao.createMessage, dao.helpCheckinUpdate]) ?_
          intro x
          by_cases hx : x.ID = rid
          · simp only [if_pos hx]
            refine ⟨by trivial, ?_⟩
            cases hs : x.Status with
            | ActiveStatus => exact Or.inl (Or.inl rfl)
            | InactiveStatus => exact Or.inl (Or.inr (Or.inl ⟨rfl, rfl⟩))
            | DeleteStatus => exact Or.inr ⟨by trivial, by trivial, by simp [Op.names, hx]⟩
          · simp only [if_neg hx]
            exact ⟨by trivial, Or.inl (Or.inl rfl)⟩
  | PayCheckin ids c p =>
    simp only [Op.run]
    obtain ⟨g, hrec, hg⟩ := PayCheckin_records s env ids c p
    refine key _ g [] (by simp [hrec]) ?_
    intro x
    refine ⟨(hg x).1, ?_⟩
    by_cases hx : x.ID ∈ ids
    · rcases (hg x).2.2 with hs | hs
      · exact Or.inl (Or.inl hs.symm)
      · rw [hs]
        cases hxs : x.Status with
        | ActiveStatus => exact Or.inl (Or.inl rfl)
        | InactiveStatus => exact Or.inl (Or.inr (Or.inl ⟨rfl, rfl⟩))
        | DeleteStatus => exact Or.inr ⟨by trivial, by trivial, by simp [Op.names, hx]⟩
    · rw [(hg x).2.1 hx]
      exact Or.inl (Or.inl rfl)
  | InvalidCheckin c =>
    simp only [Op.run, dao.InvalidCheckin]
    cases env.fault 0 with
    | some e => exact key _ id [] (by simp) same
    | none =>
      refine key _ (fun r => if r.Status ≠ DeleteStatus ∧ r.CustomerID = c then
        { r with Status := DeleteStatus, UpdatedAt := env.now 0 } else r) [] (by simp) ?_
      intro x
      by_cases hx : x.Status ≠ DeleteStatus ∧ x.CustomerID = c
      · simp only [if_pos hx]
        exact ⟨by trivial, Or.inl (Or.inr (Or.inr ⟨hx.1, rfl⟩))⟩
      · simp only [if_neg hx]
        exact ⟨by trivial, Or.inl (Or.inl rfl)⟩

/-- C7 witness: record 1 of the invalidated cycle of customer 1 under `HelpCheckin`. -/
theorem lifecycle_status_moves_witness :
    ∃ r', (Op.run invalidatedStore quietEnv (Op.HelpCheckin 1 1 2)).CheckinRecords[0]? = some r'
      ∧ r'.ID = 1
      ∧ (LegalMove DeleteStatus r'.Status
          ∨ (DeleteStatus = DeleteStatus ∧ r'.Status = ActiveStatus
              ∧ (Op.HelpCheckin 1 1 2).names 1 = true))
      ∧ (r'.Status = InactiveStatus → DeleteStatus = InactiveStatus) :=
  lifecycle_status_moves invalidatedStore quietEnv (Op.HelpCheckin 1 1 2) 0
    ⟨1, 1, 1, 0, DeleteStatus, 0, 0, 0⟩ (by decide)

/-! ## Same-day check-in -/

theorem changedRecords_map (g : CheckinRecord → CheckinRecord) :
    ∀ l : List CheckinRecord,
      (changedRecords l (l.map g)).length = (l.filter (fun r => decide (r ≠ g r))).length
      ∧ ∀ p ∈ l.zip (l.map g), p.2 = g p.1 := by
  intro l
  induction l with
  | nil => simp [changedRecords]
  | cons a t ih =>
    obtain ⟨ih1, ih2⟩ := ih
    simp only [changedRecords] at ih1
    constructor
    · simp only [changedRecords, List.map_cons, List.zip_cons_cons, List.filter_cons, ne_eq,
        decide_not]
      simp only [ne_eq, decide_not] at ih1
      cases hd : decide (a = g a) with
      | true => simpa using ih1
      | false => simpa using ih1
    · intro p hp
      simp only [List.map_cons, List.zip_cons_cons, List.mem_cons] at hp
      rcases hp with hp | hp
      · subst hp; rfl
      · exact ih2 p hp

/-- C8 (as stated, refuted): customer 1 has two cycles created on the same day;
`ExecCheckin` activates the day-1 record of both (ids 1 and 6), so two records differ
before/after. -/
theorem ExecCheckin_changes_two_records :
    (dao.ExecCheckin doubleCycleStore quietEnv 1).2 = none
    ∧ (changedRecords doubleCycleStore.CheckinRecords
        (dao.ExecCheckin doubleCycleStore quietEnv 1).1.CheckinRecords).map
          (fun p => (p.1.ID, p.1.Status, p.2.Status))
      = [(1, InactiveStatus, ActiveStatus), (6, InactiveStatus, ActiveStatus)]
    ∧ ¬ (changedRecords doubleCycleStore.CheckinRecords
        (dao.ExecCheckin doubleCycleStore quietEnv 1).1.CheckinRecords).length ≤ 1 := by
  refine ⟨by decide, by decide, by decide⟩

/-- C8 (amended): `ExecCheckin` keeps every check-in record in place; a record that differs
before/after is one of that customer, dated today and Inactive before, and it differs by
being Active with a new `updated_at`; every record for another day or another customer is
identical before and after.  The number of records that differ is at most the number of
that customer's Inactive records dated today (and equal to it when the call succeeds), so
at most one when there is at most one such record. -/
theorem ExecCheckin_frame (s : Store) (env : Env) (customerID : Nat) :
    (dao.ExecCheckin s env customerID).1.CheckinRecords.length = s.CheckinRecords.length
    ∧ (∀ p ∈ s.CheckinRecords.zip (dao.ExecCheckin s env customerID).1.CheckinRecords,
        (p.1.CustomerID ≠ customerID ∨ env.DATE p.1.NeedCheckinTime ≠ env.CURRENT_DATE
          → p.2 = p.1)
        ∧ (p.2 ≠ p.1 → p.1.Status = InactiveStatus
            ∧ p.2 = { p.1 with Status := ActiveStatus, UpdatedAt := env.now 0 }))
    ∧ (changedRecords s.CheckinRecords (dao.ExecCheckin s env customerID).1.CheckinRecords).length
        ≤ (s.CheckinRecords.filter (dao.execCheckinSel env customerID)).length
    ∧ ((dao.ExecCheckin s env customerID).2 = none →
        (changedRecords s.CheckinRecords
            (dao.ExecCheckin s env customerID).1.CheckinRecords).length
          = (s.CheckinRecords.filter (dao.execCheckinSel env customerID)).length)
    ∧ ((s.CheckinRecords.filter (dao.execCheckinSel env customerID)).length ≤ 1 →
        (changedRecords s.CheckinRecords
            (dao.ExecCheckin s env customerID).1.CheckinRecords).length ≤ 1) := by
  have hid := changedRecords_map id s.CheckinRecords
  have hzero : (changedRecords s.CheckinRecords s.CheckinRecords).length = 0 := by
    have := hid.1
    simp only [List.map_id] at this
    rw [this]
    simp
  have hpair : ∀ p ∈ s.CheckinRecords.zip s.CheckinRecords, p.2 = p.1 := by
    intro p hp
    have := hid.2 p (by simpa using hp)
    simpa using this
  have rolled : ∀ e : Err,
      ((s, some e) : Store × Option Err).1.CheckinRecords.length = s.CheckinRecords.length
      ∧ (∀ p ∈ s.CheckinRecords.zip ((s, some e) : Store × Option Err).1.CheckinRecords,
          (p.1.CustomerID ≠ customerID ∨ env.DATE p.1.NeedCheckinTime ≠ env.CURRENT_DATE
            → p.2 = p.1)
          ∧ (p.2 ≠ p.1 → p.1.Status = InactiveStatus
              ∧ p.2 = { p.1 with Status := ActiveStatus, UpdatedAt := env.now 0 }))
      ∧ (changedRecords s.CheckinRecords
            ((s, some e) : Store × Option Err).1.CheckinRecords).length
          ≤ (s.CheckinRecords.filter (dao.execCheckinSel env customerID)).length
      ∧ (((s, some e) : Store × Option Err).2 = none →
          (changedRecords s.CheckinRecords
              ((s, some e) : Store × Option Err).1.CheckinRecords).length
            = (s.CheckinRecords.filter (dao.execCheckinSel env customerID)).length)
      ∧ ((s.CheckinRecords.filter (dao.execCheckinSel env customerID)).length ≤ 1 →
          (changedRecords s.CheckinRecords
              ((s, some e) : Store × Option Err).1.CheckinRecords).length ≤ 1) := by
    intro e
    refine ⟨rfl, fun p hp => ⟨fun _ => hpair p hp, fun hne => absurd (hpair p hp) hne⟩, ?_,
      fun h => absurd h (by simp), fun _ => ?_⟩
    · simp only [hzero]; omega
    · simp only [hzero]; omega
  unfold dao.ExecCheckin
  cases env.fault 0 with
  | some c => exact rolled _
  | none =>
    cases env.fault 1 with
    | some c => exact rolled _
    | none =>
      cases env.fault 2 with
      | some c => exact rolled _
      | none =>
        simp only [dao.touchCustomer]
        have hg := changedRecords_map (fun r => if dao.execCheckinSel env customerID r = true then
            { r with Status := ActiveStatus, UpdatedAt := env.now 0 } else r) s.CheckinRecords
        have hcount : (s.CheckinRecords.filter (fun r => decide (r ≠
            (if dao.execCheckinSel env customerID r = true then
              { r with Status := ActiveStatus, UpdatedAt := env.now 0 } else r)))).length
            = (s.CheckinRecords.filter (dao.execCheckinSel env customerID)).length := by
          congr 1
          apply List.filter_congr
          intro r _
          by_cases hsel : dao.execCheckinSel env customerID r = true
          · have hst : r.Status = InactiveStatus := by
              simp only [dao.execCheckinSel, decide_eq_true_eq] at hsel
              exact hsel.2.1
            rw [if_pos hsel, hsel]
            simp only [ne_eq, decide_eq_true_eq]
            intro heq
            have := congrArg CheckinRecord.Status heq
            rw [hst] at this
            exact absurd this (by simp)
          · rw [if_neg hsel]
            simp only [Bool.not_eq_true] at hsel
            rw [hsel]
            simp
        refine ⟨by simp, ?_, ?_, ?_, ?_⟩
        · intro p hp
          have hp2 := hg.2 p hp
          by_cases hsel : dao.execCheckinSel env customerID p.1 = true
          · rw [if_pos hsel] at hp2
            have hs := hsel
            simp only [dao.execCheckinSel, decide_eq_true_eq] at hs
            refine ⟨fun hor => ?_, fun _ => ⟨hs.2.1, hp2⟩⟩
            rcases hor with h | h
            · exact absurd hs.2.2 h
            · exact absurd hs.1 h
          · rw [if_neg hsel] at hp2
            exact ⟨fun _ => hp2, fun hne => absurd hp2 hne⟩
        · rw [hg.1, hcount]
        · intro _
          rw [hg.1, hcount]
        · intro h1
          rw [hg.1, hcount]
          exact h1

/-- C8 witness: the single cycle of customer 1 holds one Inactive record dated today, so
at most one record differs after `ExecCheckin`. -/
theorem ExecCheckin_frame_witness :
    (changedRecords cycleStore.CheckinRecords
        (dao.ExecCheckin cycleStore quietEnv 1).1.CheckinRecords).length ≤ 1 :=
  (ExecCheckin_frame cycleStore quietEnv 1).2.2.2.2 (by decide)

/-- C9 (as stated, refuted): in the cycle of customer 1 today's record is already Active and
no Inactive record carries today's date; a further `ExecCheckin` returns success and leaves
the check-in records alone, but it appends a second log row and moves the customer's
lastCheckinTime from 0 to the new clock reading 1. -/
theorem ExecCheckin_again_writes_log :
    checkedStore.CheckinRecords.filter (dao.execCheckinSel tickEnv 1) = []
    ∧ (dao.ExecCheckin checkedStore tickEnv 1).2 = none
    ∧ (dao.ExecCheckin checkedStore tickEnv 1).1.CheckinRecords = checkedStore.CheckinRecords
    ∧ checkedStore.CheckinRecordLogs = [⟨1, 1, 0⟩]
    ∧ (dao.ExecCheckin checkedStore tickEnv 1).1.CheckinRecordLogs = [⟨1, 1, 0⟩, ⟨2, 1, 2⟩]
    ∧ checkedStore.Customers = [⟨1, ActiveStatus, 0⟩]
    ∧ (dao.ExecCheckin checkedStore tickEnv 1).1.Customers = [⟨1, ActiveStatus, 1⟩]
    ∧ (dao.ExecCheckin checkedStore tickEnv 1).1 ≠ checkedStore := by
  refine ⟨by decide, by decide, by decide, by decide, by decide, by decide, by decide, by decide⟩

/-- C9 (amended): when the customer has no Inactive record dated today and no statement
fails, `ExecCheckin` returns success and leaves the check-in records as they were; it still
sets lastCheckinTime of the active customer row to the current time and appends one
CheckinRecordLog row for customerID, and changes nothing else. -/
theorem ExecCheckin_no_match (s : Store) (env : Env) (customerID : Nat)
    (hno : ∀ r ∈ s.CheckinRecords, dao.execCheckinSel env customerID r = false)
    (hf : ∀ k, k < 3 → env.fault k = none) :
    dao.ExecCheckin s env customerID =
      ({ s with
          Customers := s.Customers.map (fun c =>
            if c.ID = customerID ∧ c.Status = ActiveStatus then
              { c with LastCheckinTime := env.now 1 } else c)
          CheckinRecordLogs := s.CheckinRecordLogs ++
            [⟨nextID (s.CheckinRecordLogs.map CheckinRecordLog.ID), customerID, env.now 2⟩] },
        none) := by
  have hmap : s.CheckinRecords.map (fun r =>
      if dao.execCheckinSel env customerID r = true then
        { r with Status := ActiveStatus, UpdatedAt := env.now 0 } else r) = s.CheckinRecords := by
    conv_rhs => rw [← List.map_id s.CheckinRecords]
    apply List.map_congr_left
    intro r hr
    simp [hno r hr]
  simp only [dao.ExecCheckin, hf 0 (by omega), hf 1 (by omega), hf 2 (by omega),
    dao.touchCustomer, hmap]

/-- C9 witness: the cycle of customer 1 after today's check-in, under the ticking clock. -/
theorem ExecCheckin_no_match_witness :
    dao.ExecCheckin checkedStore tickEnv 1 =
      ({ checkedStore with
          Customers := checkedStore.Customers.map (fun c =>
            if c.ID = 1 ∧ c.Status = ActiveStatus then
              { c with LastCheckinTime := tickEnv.now 1 } else c)
          CheckinRecordLogs := checkedStore.CheckinRecordLogs ++
            [⟨nextID (checkedStore.CheckinRecordLogs.map CheckinRecordLog.ID), 1,
              tickEnv.now 2⟩] },
        none) :=
  ExecCheckin_no_match checkedStore tickEnv 1 (by decide) (fun _ _ => rfl)

/-! ## Invalidation -/

/-- C10: when its statement does not fail, `InvalidCheckin` returns no error, keeps every
check-in record in place with its id and customer, leaves every record of that customer
Deleted and every other record (and every record already Deleted) untouched; a second call,
whatever its clock reading and whether or not its statement fails, leaves the store as the
first call left it. -/
theorem InvalidCheckin_idempotent (s : Store) (env env2 : Env) (customerID : Nat)
    (h0 : env.fault 0 = none) :
    (dao.InvalidCheckin s env customerID).2 = none
    ∧ (∀ r ∈ (dao.InvalidCheckin s env customerID).1.CheckinRecords,
        r.CustomerID = customerID → r.Status = DeleteStatus)
    ∧ (dao.InvalidCheckin s env customerID).1.CheckinRecords.length = s.CheckinRecords.length
    ∧ (∀ p ∈ s.CheckinRecords.zip (dao.InvalidCheckin s env customerID).1.CheckinRecords,
        p.2.ID = p.1.ID ∧ p.2.CustomerID = p.1.CustomerID
        ∧ (p.1.CustomerID = customerID → p.1.Status ≠ DeleteStatus →
            p.2 = { p.1 with Status := DeleteStatus, UpdatedAt := env.now 0 })
        ∧ (p.1.CustomerID ≠ customerID ∨ p.1.Status = DeleteStatus → p.2 = p.1))
    ∧ (dao.InvalidCheckin (dao.InvalidCheckin s env customerID).1 env2 customerID).1
        = (dao.InvalidCheckin s env customerID).1 := by
  have hres : dao.InvalidCheckin s env customerID =
      ({ s with CheckinRecords := s.CheckinRecords.map (fun r =>
          if r.Status ≠ DeleteStatus ∧ r.CustomerID = customerID then
            { r with Status := DeleteStatus, UpdatedAt := env.now 0 } else r) }, none) := by
    simp only [dao.InvalidCheckin, h0, checkErr]
  rw [hres]
  have hdel : ∀ r ∈ s.CheckinRecords.map (fun r =>
      if r.Status ≠ DeleteStatus ∧ r.CustomerID = customerID then
        { r with Status := DeleteStatus, UpdatedAt := env.now 0 } else r),
      r.CustomerID = customerID → r.Status = DeleteStatus := by
    intro r hr hc
    obtain ⟨x, -, hx⟩ := List.mem_map.1 hr
    by_cases hsel : x.Status ≠ DeleteStatus ∧ x.CustomerID = customerID
    · rw [if_pos hsel] at hx
      subst hx
      rfl
    · rw [if_neg hsel] at hx
      subst hx
      by_contra hne
      exact hsel ⟨hne, hc⟩
  have hpairs := (changedRecords_map (fun r =>
      if r.Status ≠ DeleteStatus ∧ r.CustomerID = customerID then
        { r with Status := DeleteStatus, UpdatedAt := env.now 0 } else r) s.CheckinRecords).2
  refine ⟨rfl, hdel, by simp, ?_, ?_⟩
  · intro p hp
    have hp2 := hpairs p hp
    by_cases hsel : p.1.Status ≠ DeleteStatus ∧ p.1.CustomerID = customerID
    · rw [if_pos hsel] at hp2
      refine ⟨by rw [hp2], by rw [hp2], fun _ _ => hp2, fun hor => ?_⟩
      rcases hor with h | h
      · exact absurd hsel.2 h
      · exact absurd h hsel.1
    · rw [if_neg hsel] at hp2
      refine ⟨by rw [hp2], by rw [hp2], fun hc hst => absurd ⟨hst, hc⟩ hsel, fun _ => hp2⟩
  · simp only [dao.InvalidCheckin]
    cases env2.fault 0 with
    | some c => rfl
    | none =>
      simp only
      congr 1
      conv_rhs => rw [← List.map_id (s.CheckinRecords.map _)]
      apply List.map_congr_left
      intro r hr
      by_cases hc : r.CustomerID = customerID
      · have := hdel r hr hc
        simp [this]
      · simp [hc]

/-- C10 witness: invalidating the cycle of customer 1 once and then again under the
ticking clock. -/
theorem InvalidCheckin_idempotent_witness :
    (dao.InvalidCheckin cycleStore quietEnv 1).1.CheckinRecords.map (fun r => r.Status)
      = [DeleteStatus, DeleteStatus, DeleteStatus, DeleteStatus, DeleteStatus]
    ∧ (dao.InvalidCheckin (dao.InvalidCheckin cycleStore quietEnv 1).1 tickEnv 1).1
        = (dao.InvalidCheckin cycleStore quietEnv 1).1 :=
  ⟨by decide, (InvalidCheckin_idempotent cycleStore quietEnv tickEnv 1 rfl).2.2.2.2⟩

/-! ## Has the customer checked in today -/

/-- C11 (as stated, refuted): customer 1 has two Active records dated today (ids 1 and 6),
so it is not the case that exactly one exists, yet `HasChecked` returns true. -/
theorem HasChecked_true_with_two_records :
    dao.HasChecked doubleCheckedStore quietEnv 1 = (true, none)
    ∧ (doubleCheckedStore.CheckinRecords.filter (fun r =>
        decide (r.CustomerID = 1 ∧ r.Status = ActiveStatus
          ∧ quietEnv.DATE r.NeedCheckinTime = quietEnv.CURRENT_DATE))).map CheckinRecord.ID
        = [1, 6]
    ∧ ¬ (doubleCheckedStore.CheckinRecords.filter (fun r =>
        decide (r.CustomerID = 1 ∧ r.Status = ActiveStatus
          ∧ quietEnv.DATE r.NeedCheckinTime = quietEnv.CURRENT_DATE))).length = 1 := by
  refine ⟨by decide, by decide, by decide⟩

/-- C11 (amended): in a store whose check-in records have non-zero ids, when the query
does not fail, `HasChecked` returns no error, and it returns true if and only if at least
one Active check-in record of that customer exists whose needCheckinTime date equals the
current date; when there is none it returns false with no error. -/
theorem HasChecked_iff_exists (s : Store) (env : Env) (customerID : Nat)
    (hkeys : ∀ r ∈ s.CheckinRecords, r.ID ≠ 0) (hf : env.fault 0 = none) :
    (dao.HasChecked s env customerID).2 = none
    ∧ ((dao.HasChecked s env customerID).1 = true ↔
        ∃ r ∈ s.CheckinRecords, r.CustomerID = customerID ∧ r.Status = ActiveStatus
          ∧ env.DATE r.NeedCheckinTime = env.CURRENT_DATE)
    ∧ ((∀ r ∈ s.CheckinRecords, ¬ (r.CustomerID = customerID ∧ r.Status = ActiveStatus
          ∧ env.DATE r.NeedCheckinTime = env.CURRENT_DATE)) →
        dao.HasChecked s env customerID = (false, none)) := by
  have hmem : ∀ r, r ∈ s.CheckinRecords.filter (dao.hasCheckedSel env customerID) ↔
      r ∈ s.CheckinRecords ∧ r.CustomerID = customerID ∧ r.Status = ActiveStatus
        ∧ env.DATE r.NeedCheckinTime = env.CURRENT_DATE := by
    intro r
    simp only [List.mem_filter, dao.hasCheckedSel, decide_eq_true_eq]
    constructor
    · rintro ⟨h1, h2, h3, h4⟩
      exact ⟨h1, h3, h4, h2.symm⟩
    · rintro ⟨h1, h2, h3, h4⟩
      exact ⟨h1, h4.symm, h2, h3⟩
  unfold dao.HasChecked
  simp only [gormFirst, hf]
  cases hq : minByKey CheckinRecord.ID
      (s.CheckinRecords.filter (dao.hasCheckedSel env customerID)) with
  | none =>
    simp only
    refine ⟨by trivial, ⟨fun h => absurd h (by simp), ?_⟩, fun _ => by trivial⟩
    rintro ⟨r, hr, h1, h2, h3⟩
    have hne : s.CheckinRecords.filter (dao.hasCheckedSel env customerID) ≠ [] := by
      intro hnil
      have := (hmem r).2 ⟨hr, h1, h2, h3⟩
      rw [hnil] at this
      simp at this
    obtain ⟨x, hx⟩ := minByKey_isSome CheckinRecord.ID _ hne
    rw [hx] at hq
    exact absurd hq (by simp)
  | some x =>
    have hx := (hmem x).1 (minByKey_mem CheckinRecord.ID _ _ hq)
    have hid : x.ID ≠ 0 := hkeys x hx.1
    simp only [Option.getD_some, ne_eq, hid, not_false_eq_true, if_true]
    refine ⟨by trivial, ⟨fun _ => ⟨x, hx⟩, fun _ => by trivial⟩, fun hno => absurd hx.2 (hno x hx.1)⟩

/-- C11 witness: the cycle of customer 1 after today's check-in (one Active record dated
today) and before it (none). -/
theorem HasChecked_iff_exists_witness :
    ((dao.HasChecked checkedStore quietEnv 1).1 = true ↔
        ∃ r ∈ checkedStore.CheckinRecords, r.CustomerID = 1 ∧ r.Status = ActiveStatus
          ∧ quietEnv.DATE r.NeedCheckinTime = quietEnv.CURRENT_DATE)
    ∧ dao.HasChecked checkedStore quietEnv 1 = (true, none)
    ∧ dao.HasChecked cycleStore quietEnv 1 = (false, none) :=
  ⟨(HasChecked_iff_exists checkedStore quietEnv 1 (by decide) rfl).2.1, by decide,
    (HasChecked_iff_exists cycleStore quietEnv 1 (by decide) rfl).2.2 (by decide)⟩

/-! ## Sequences of write-off calls -/

theorem minByKey_map {α : Type} (key : α → Nat) (g : α → α) (hg : ∀ x, key (g x) = key x) :
    ∀ l : List α, minByKey key (l.map g) = (minByKey key l).map g := by
  intro l
  induction l with
  | nil => rfl
  | cons a t ih =>
    simp only [List.map_cons, minByKey, ih]
    cases minByKey key t with
    | none => rfl
    | some y =>
      simp only [Option.map_some', hg]
      by_cases h : key a ≤ key y
      · simp [h]
      · simp [h]

/-- The issue record in a successful `GetWriteOff` response is the active issue record of
the pair, or the zero value when there is none. -/
theorem GetWriteOff_issueRecord (s : Store) (env : Env) (merchantID customerID : Nat)
    (resp : MerchantWriteOffRespVO) (code : APICode)
    (h : Service.GetWriteOff s env merchantID customerID = (some resp, code, none)) :
    resp.IssueRecord = (activeIssueRecord s merchantID customerID).getD IssueRecord.zero := by
  unfold Service.GetWriteOff at h
  simp only at h
  split at h
  · simp at h
  · split at h
    · simp at h
    · split at h
      · simp at h
      · rename_i hr
        simp only [Prod.mk.injEq, Option.some.injEq] at h
        obtain ⟨hresp, -, -⟩ := h
        subst hresp
        simp only [dao.FindIssueRecord, gormFirst, activeIssueRecord] at hr ⊢
        cases hf : env.fault 2 with
        | some c => simp [hf, checkErr] at hr
        | none =>
          simp only
          cases minByKey IssueRecord.ID (s.IssueRecords.filter (fun r =>
            decide (r.MerchantID = merchantID ∧ r.CustomerID = customerID
              ∧ r.Status = ActiveStatus))) with
          | none => rfl
          | some x => rfl

/-- The store `EcecWriteOff` leaves behind is the old one or the one with both updates. -/
theorem EcecWriteOff_store (s : Store) (env : Env) (merchantID customerID hasRece writeOffNum : Nat) :
    (dao.EcecWriteOff s env merchantID customerID hasRece writeOffNum).1 = s
    ∨ (dao.EcecWriteOff s env merchantID customerID hasRece writeOffNum).1 =
      { s with
          IssueRecords := s.IssueRecords.map (fun r =>
            if r.MerchantID = merchantID ∧ r.CustomerID = customerID ∧ r.Status = ActiveStatus
            then { r with Received := hasRece } else r)
          Merchants := s.Merchants.map (fun m =>
            if m.ID = merchantID then { m with HasWriteOffNum := writeOffNum } else m) } := by
  unfold dao.EcecWriteOff
  cases env.fault 0 with
  | some c => exact Or.inl rfl
  | none =>
    cases env.fault 1 with
    | some c => exact Or.inl rfl
    | none => exact Or.inr rfl

/-- The active issue record of the pair after the update of `EcecWriteOff`. -/
theorem activeIssueRecord_after_update (s : Store) (merchantID customerID hasRece : Nat)
    (ms : List Merchant) (ra : IssueRecord)
    (h : activeIssueRecord s merchantID customerID = some ra) :
    activeIssueRecord
      { s with
          IssueRecords := s.IssueRecords.map (fun r =>
            if r.MerchantID = merchantID ∧ r.CustomerID = customerID ∧ r.Status = ActiveStatus
            then { r with Received := hasRece } else r)
          Merchants := ms } merchantID customerID
      = some { ra with Received := hasRece } := by
  have hmem := minByKey_mem IssueRecord.ID _ _ h
  simp only [List.mem_filter, decide_eq_true_eq] at hmem
  unfold activeIssueRecord at h ⊢
  simp only
  rw [List.filter_map]
  have hq : ((fun r : IssueRecord =>
        decide (r.MerchantID = merchantID ∧ r.CustomerID = customerID ∧ r.Status = ActiveStatus))
      ∘ fun r : IssueRecord =>
        if r.MerchantID = merchantID ∧ r.CustomerID = customerID ∧ r.Status = ActiveStatus
        then { r with Received := hasRece } else r)
      = fun r : IssueRecord =>
        decide (r.MerchantID = merchantID ∧ r.CustomerID = customerID
          ∧ r.Status = ActiveStatus) := by
    funext r
    simp only [Function.comp]
    by_cases hr : r.MerchantID = merchantID ∧ r.CustomerID = customerID ∧ r.Status = ActiveStatus
    · simp only [if_pos hr]
    · simp only [if_neg hr]
  rw [hq, minByKey_map IssueRecord.ID _ (fun x => by
    by_cases hx : x.MerchantID = merchantID ∧ x.CustomerID = customerID ∧ x.Status = ActiveStatus
    · rw [if_pos hx]
    · rw [if_neg hx]), h]
  simp only [Option.map_some', if_pos hmem.2]

/-- One write-off call: the active issue record of the pair stays the same row, its
received does not go down and stays within totalReceive. -/
theorem writeOffStep_received (merchantID customerID : Nat) (s : Store) (call : Env × Nat)
    (ra : IssueRecord) (h : activeIssueRecord s merchantID customerID = some ra)
    (hinv : ra.Received ≤ ra.TotalReceive) (hT : ra.TotalReceive < 2 ^ 64) :
    ∃ rb, activeIssueRecord (writeOffStep merchantID customerID s call) merchantID customerID
        = some rb
      ∧ rb.ID = ra.ID ∧ rb.TotalReceive = ra.TotalReceive
      ∧ ra.Received ≤ rb.Received ∧ rb.Received ≤ rb.TotalReceive := by
  have hsame : ∃ rb, activeIssueRecord s merchantID customerID = some rb
      ∧ rb.ID = ra.ID ∧ rb.TotalReceive = ra.TotalReceive
      ∧ ra.Received ≤ rb.Received ∧ rb.Received ≤ rb.TotalReceive :=
    ⟨ra, h, rfl, rfl, Nat.le_refl _, hinv⟩
  unfold writeOffStep Service.ExecWriteOff
  simp only
  rcases hg : Service.GetWriteOff s call.1 merchantID customerID with ⟨resp, code, err⟩
  cases err with
  | some e => simpa only using hsame
  | none =>
    cases resp with
    | none => simpa only using hsame
    | some resp =>
      have hr : resp.IssueRecord = ra := by
        rw [GetWriteOff_issueRecord s call.1 merchantID customerID resp code hg, h]
        rfl
      obtain ⟨⟨-, hmID, -⟩, ⟨-, hcID, -⟩, -⟩ :=
        GetWriteOff_found s call.1 merchantID customerID resp code hg
      simp only [hr, hmID, hcID]
      by_cases h0 : ra.ID = 0
      · simp only [if_pos h0]
        exact hsame
      · simp only [if_neg h0]
        by_cases hguard : u64sub ra.TotalReceive ra.Received < call.2
        · simp only [if_pos hguard]
          exact hsame
        · simp only [if_neg hguard]
          rw [u64sub_eq_sub hinv hT] at hguard
          have hsum : u64add ra.Received call.2 = ra.Received + call.2 := by
            unfold u64add
            apply Nat.mod_eq_of_lt
            omega
          rcases EcecWriteOff_store s (call.1.skip 3) merchantID customerID
              (u64add ra.Received call.2) (u64add resp.Merchant.HasWriteOffNum call.2)
            with hw | hw
          · cases hw2 : (dao.EcecWriteOff s (call.1.skip 3) merchantID customerID
                (u64add ra.Received call.2) (u64add resp.Merchant.HasWriteOffNum call.2)).2 with
            | some e => simp only [hw]; exact hsame
            | none => simp only [hw]; exact hsame
          · have hact := activeIssueRecord_after_update s merchantID customerID
              (u64add ra.Received call.2)
              (s.Merchants.map (fun m => if m.ID = merchantID then
                { m with HasWriteOffNum := u64add resp.Merchant.HasWriteOffNum call.2 } else m))
              ra h
            cases hw2 : (dao.EcecWriteOff s (call.1.skip 3) merchantID customerID
                (u64add ra.Received call.2) (u64add resp.Merchant.HasWriteOffNum call.2)).2 with
            | some e =>
              simp only [hw]
              exact ⟨_, hact, rfl, rfl, by simp only [hsum]; omega, by simp only [hsum]; omega⟩
            | none =>
              simp only [hw]
              exact ⟨_, hact, rfl, rfl, by simp only [hsum]; omega, by simp only [hsum]; omega⟩

/-- C12 (amended): let the active issue record of the pair that the lookup returns (the one
with the least id) start with received ≤ totalReceive.  Along every finite sequence of
write-off calls for the pair (`Service.ExecWriteOff` with `dao.EcecWriteOff`), with
arbitrary num values and whatever fails, after each call that record is still the same row
with the same totalReceive, its stored received is at least its previous value, and it
does not exceed totalReceive. -/
theorem writeOff_received_monotone_bounded (merchantID customerID : Nat) (s : Store)
    (r0 : IssueRecord) (calls : List (Env × Nat))
    (h0 : activeIssueRecord s merchantID customerID = some r0)
    (hinv : r0.Received ≤ r0.TotalReceive) (hT : r0.TotalReceive < 2 ^ 64) :
    List.Chain (ReceivedStep merchantID customerID) s
        (writeOffTrace merchantID customerID s calls)
    ∧ ∀ s' ∈ writeOffTrace merchantID customerID s calls,
        ∃ r', activeIssueRecord s' merchantID customerID = some r'
          ∧ r'.ID = r0.ID ∧ r'.TotalReceive = r0.TotalReceive
          ∧ r0.Received ≤ r'.Received ∧ r'.Received ≤ r0.TotalReceive := by
  induction calls generalizing s r0 with
  | nil => exact ⟨List.Chain.nil, fun s' hs' => by simp [writeOffTrace] at hs'⟩
  | cons call rest ih =>
    obtain ⟨rb, hb, hid, htot, hmono, hle⟩ :=
      writeOffStep_received merchantID customerID s call r0 h0 hinv hT
    obtain ⟨hchain, hall⟩ := ih (writeOffStep merchantID customerID s call) rb hb hle
      (by rw [htot]; exact hT)
    simp only [writeOffTrace]
    refine ⟨List.Chain.cons ⟨r0, rb, h0, hb, hid, htot, hmono, hle⟩ hchain, ?_⟩
    intro s' hs'
    rcases List.mem_cons.1 hs' with hs' | hs'
    · subst hs'
      exact ⟨rb, hb, hid, htot, hmono, by rw [← htot]; exact hle⟩
    · obtain ⟨r', hr', hid', htot', hmono', hle'⟩ := hall s' hs'
      exact ⟨r', hr', by rw [hid', hid], by rw [htot', htot], Nat.le_trans hmono hmono',
        by rw [← htot]; exact hle'⟩

/-- C12 witness: the scenario of the spec (totalReceive = 10, received = 3) under the calls
num = 5, num = 3 (rejected), num = 1 with the merchant update failing, num = 2, num = 1
(rejected): received goes 8, 8, 8, 10, 10. -/
theorem writeOff_received_monotone_bounded_witness :
    (writeOffTrace 1 7 scenarioStore
        [(quietEnv, 5), (quietEnv, 3), (failAt 4, 1), (quietEnv, 2), (quietEnv, 1)]).map
      (fun s => s.IssueRecords.map IssueRecord.Received) = [[8], [8], [8], [10], [10]]
    ∧ List.Chain (ReceivedStep 1 7) scenarioStore
        (writeOffTrace 1 7 scenarioStore
          [(quietEnv, 5), (quietEnv, 3), (failAt 4, 1), (quietEnv, 2), (quietEnv, 1)]) :=
  ⟨by decide,
    (writeOff_received_monotone_bounded 1 7 scenarioStore ⟨4, 1, 7, ActiveStatus, 10, 3, 0⟩
      [(quietEnv, 5), (quietEnv, 3), (failAt 4, 1), (quietEnv, 2), (quietEnv, 1)]
      (by decide) (by decide) (by decide)).1⟩

/-! ## The last id of a paid batch -/

/-- The loop of `PayCheckin` does not touch the payment records. -/
theorem PayCheckin_loop_payRecords (env : Env) (customerID : Nat) :
    ∀ (ids : List Nat) (i : Nat) (tx tx' : Store),
      dao.PayCheckin.loop env customerID i ids tx = Except.ok tx' →
      tx'.WXPayRecords = tx.WXPayRecords := by
  intro ids
  induction ids with
  | nil =>
    intro i tx tx' h
    simp only [dao.PayCheckin.loop, Except.ok.injEq] at h
    rw [← h]
  | cons a t ih =>
    intro i tx tx' h
    simp only [dao.PayCheckin.loop] at h
    cases h0 : env.fault (2 * i) with
    | some c => rw [h0] at h; exact absurd h (by simp)
    | none =>
      rw [h0] at h
      simp only at h
      cases h1 : env.fault (2 * i + 1) with
      | some c => rw [h1] at h; exact absurd h (by simp)
      | none =>
        rw [h1] at h
        simp only at h
        have hrest := ih (i + 1)
          (dao.createMessage (dao.payCheckinUpdate tx (env.now i) a) a customerID) tx' h
        rw [hrest]
        rfl

/-- C13: for a non-empty batch the access `checkRecordIds[len(checkRecordIds)-1]` of
`PayCheckin` is in bounds and yields the last id of the batch, the call never ends in the
out-of-range panic, and when it returns no error the payment record it appended carries
that last id.  For the empty batch the access is out of bounds: the call ends in the
out-of-range panic as soon as the customer update before it does not fail (and returns
that update's error otherwise), committing nothing. -/
theorem PayCheckin_last_index (s : Store) (env : Env) (ids : List Nat) (customerID : Nat)
    (payRecord : WXPayRecord) :
    (ids ≠ [] →
      (∃ last, ids[ids.length - 1]? = some last ∧ ids.getLast? = some last)
      ∧ (dao.PayCheckin s env ids customerID payRecord).2 ≠ Outcome.panicked
      ∧ ((dao.PayCheckin s env ids customerID payRecord).2 = Outcome.returned none →
          ∃ q, (dao.PayCheckin s env ids customerID payRecord).1.WXPayRecords
              = s.WXPayRecords ++ [q]
            ∧ ids.getLast? = some q.CheckinRecordID))
    ∧ (ids = [] →
      ids[ids.length - 1]? = none
      ∧ (env.fault 0 = none →
          dao.PayCheckin s env ids customerID payRecord = (s, Outcome.panicked))
      ∧ (env.fault 0 ≠ none →
          ∃ e, dao.PayCheckin s env ids customerID payRecord
            = (s, Outcome.returned (some e)))) := by
  constructor
  · intro hne
    have hlen : 0 < ids.length := List.length_pos.2 hne
    have hlt : ids.length - 1 < ids.length := by omega
    have hidx : ids[ids.length - 1]? = some ids[ids.length - 1] := List.getElem?_eq_getElem hlt
    have hgl : ids.getLast? = some ids[ids.length - 1] := by
      rw [List.getLast?_eq_getElem?, hidx]
    refine ⟨⟨_, hidx, hgl⟩, ?_, ?_⟩
    · simp only [dao.PayCheckin]
      cases dao.PayCheckin.loop env customerID 0 ids s with
      | error e => simp
      | ok tx =>
        simp only
        cases env.fault (2 * ids.length) with
        | some c => simp
        | none =>
          simp only [hidx]
          cases env.fault (2 * ids.length + 1) with
          | some c => simp
          | none => simp
    · simp only [dao.PayCheckin]
      cases hloop : dao.PayCheckin.loop env customerID 0 ids s with
      | error e => simp
      | ok tx =>
        have hpay := PayCheckin_loop_payRecords env customerID ids 0 s tx hloop
        simp only
        cases env.fault (2 * ids.length) with
        | some c => simp
        | none =>
          simp only [hidx]
          cases env.fault (2 * ids.length + 1) with
          | some c => simp
          | none =>
            intro _
            simp only [dao.touchCustomer, hpay]
            exact ⟨⟨if payRecord.ID = 0 then nextID (s.WXPayRecords.map WXPayRecord.ID)
              else payRecord.ID, ids[ids.length - 1], env.now (ids.length + 1)⟩, rfl, hgl⟩
  · intro hnil
    subst hnil
    refine ⟨rfl, ?_, ?_⟩
    · intro h0
      simp [dao.PayCheckin, dao.PayCheckin.loop, h0]
    · intro h0
      cases hf : env.fault 0 with
      | none => exact absurd hf h0
      | some c => exact ⟨Err.db c, by simp [dao.PayCheckin, dao.PayCheckin.loop, hf]⟩

/-- C13 witness: a batch of three ids of the cycle of customer 1 ends with a payment record
for id 4; the empty batch ends in the out-of-range panic. -/
theorem PayCheckin_last_index_witness :
    ((∃ last, [2, 3, 4][[2, 3, 4].length - 1]? = some last ∧ [2, 3, 4].getLast? = some last)
      ∧ (dao.PayCheckin cycleStore quietEnv [2, 3, 4] 1 ⟨0, 0, 0⟩).2 ≠ Outcome.panicked
      ∧ ((dao.PayCheckin cycleStore quietEnv [2, 3, 4] 1 ⟨0, 0, 0⟩).2 = Outcome.returned none →
          ∃ q, (dao.PayCheckin cycleStore quietEnv [2, 3, 4] 1 ⟨0, 0, 0⟩).1.WXPayRecords
              = cycleStore.WXPayRecords ++ [q]
            ∧ [2, 3, 4].getLast? = some q.CheckinRecordID))
    ∧ (dao.PayCheckin cycleStore quietEnv [2, 3, 4] 1 ⟨0, 0, 0⟩).1.WXPayRecords = [⟨1, 4, 0⟩]
    ∧ dao.PayCheckin cycleStore quietEnv [] 1 ⟨0, 0, 0⟩ = (cycleStore, Outcome.panicked) :=
  ⟨(PayCheckin_last_index cycleStore quietEnv [2, 3, 4] 1 ⟨0, 0, 0⟩).1 (by decide), by decide,
    by decide⟩

/-! ## Write-off against the record the lookup returns -/

theorem gormFirst_found {α : Type} (key : α → Nat) (q : α → Bool) (tbl : List α)
    (h : ∃ x ∈ tbl, q x = true) :
    ∃ x, gormFirst key q tbl none = (some x, none) ∧ x ∈ tbl ∧ q x = true := by
  obtain ⟨y, hy, hqy⟩ := h
  have hne : tbl.filter q ≠ [] := by
    intro hnil
    have : y ∈ tbl.filter q := List.mem_filter.2 ⟨hy, hqy⟩
    rw [hnil] at this
    simp at this
  obtain ⟨x, hx⟩ := minByKey_isSome key _ hne
  have hmem := List.mem_filter.1 (minByKey_mem key _ _ hx)
  exact ⟨x, by simp only [gormFirst, hx], hmem.1, hmem.2⟩

/-- With non-zero primary keys, an active merchant and an active customer in the store and
no failing lookup, `GetWriteOff` answers with an active merchant row of that id, an active
customer row of that id and the active issue record of the pair (the zero value when there
is none). -/
theorem GetWriteOff_ok (s : Store) (env : Env) (merchantID customerID : Nat)
    (hm : ∃ m ∈ s.Merchants, m.ID = merchantID ∧ m.Status = ActiveStatus)
    (hc : ∃ c ∈ s.Customers, c.ID = customerID ∧ c.Status = ActiveStatus)
    (hmk : ∀ m ∈ s.Merchants, m.ID ≠ 0) (hck : ∀ c ∈ s.Customers, c.ID ≠ 0)
    (hf : ∀ k, k < 3 → env.fault k = none) :
    ∃ m c, m ∈ s.Merchants ∧ m.ID = merchantID ∧ m.Status = ActiveStatus
      ∧ Service.GetWriteOff s env merchantID customerID =
        (some ⟨m, c, (activeIssueRecord s merchantID customerID).getD IssueRecord.zero, 0⟩,
          APICode.APICodeSuccess, none) := by
  obtain ⟨m, hmf, hmm, hmq⟩ := gormFirst_found Merchant.ID
    (fun m => decide (m.ID = merchantID ∧ m.Status = ActiveStatus)) s.Merchants
    (by obtain ⟨m, h1, h2⟩ := hm; exact ⟨m, h1, by simpa using h2⟩)
  obtain ⟨c, hcf, hcm, hcq⟩ := gormFirst_found Customer.ID
    (fun c => decide (c.ID = customerID ∧ c.Status = ActiveStatus)) s.Customers
    (by obtain ⟨c, h1, h2⟩ := hc; exact ⟨c, h1, by simpa using h2⟩)
  simp only [decide_eq_true_eq] at hmq hcq
  refine ⟨m, c, hmm, hmq.1, hmq.2, ?_⟩
  have hm0 : m.ID ≠ 0 := hmk m hmm
  have hc0 : c.ID ≠ 0 := hck c hcm
  have hfm : dao.FindMerchant s (env.fault 0)
      (fun m => decide (m.ID = merchantID ∧ m.Status = ActiveStatus)) = (m, none) := by
    simp only [dao.FindMerchant, hf 0 (by omega), hmf, Option.getD_some, checkErr]
  have hfc : dao.FindCustomer s (env.fault 1)
      (fun c => decide (c.ID = customerID ∧ c.Status = ActiveStatus)) = (c, none) := by
    simp only [dao.FindCustomer, hf 1 (by omega), hcf, Option.getD_some, checkErr]
  have hfr : dao.FindIssueRecord s (env.fault 2)
      (fun r => decide (r.MerchantID = merchantID ∧ r.CustomerID = customerID
        ∧ r.Status = ActiveStatus))
      = ((activeIssueRecord s merchantID customerID).getD IssueRecord.zero, none) := by
    simp only [dao.FindIssueRecord, hf 2 (by omega), gormFirst, activeIssueRecord]
    cases minByKey IssueRecord.ID (s.IssueRecords.filter (fun r =>
        decide (r.MerchantID = merchantID ∧ r.CustomerID = customerID
          ∧ r.Status = ActiveStatus))) with
    | none => rfl
    | some x => rfl
  simp only [Service.GetWriteOff, hfm, hfc, hfr, ne_eq, not_true_eq_false, false_or, hm0, hc0,
    if_false]

/-- C1 (as stated, refuted): in `pairStore` both active issue records of the pair are
within their quota, and num = 4 exceeds totalReceive - received = 10 - 7 of record 9; yet
`ExecWriteOff` checks record 4 only (6 - 1 = 5), answers `APICodeSuccess`, and
`EcecWriteOff` stores received = 5 in both records and hasWriteOffNum = 24.  Further, in
`expiredPairStore`, reached from `quotaStore` by a write-off of 5 and the expiry of record
4, the active record of the pair has totalReceive = 5 and received = 8; num = 3 exceeds
what is left, and the call is accepted and stores received = 11. -/
theorem ExecWriteOff_accepts_excess_on_second_record :
    ((⟨9, 1, 7, ActiveStatus, 10, 7, 0⟩ : IssueRecord) ∈ pairStore.IssueRecords
      ∧ (7 : Nat) ≤ 10 ∧ (10 : Nat) - 7 < 4
      ∧ Service.ExecWriteOff pairStore quietEnv ⟨1, 7, 4⟩ =
        some ⟨{ pairStore with
                  Merchants := [⟨1, ActiveStatus, 0, 0, 24, 0⟩]
                  IssueRecords := [⟨4, 1, 7, ActiveStatus, 6, 5, 0⟩,
                                   ⟨9, 1, 7, ActiveStatus, 10, 5, 0⟩] },
              some ⟨⟨1, ActiveStatus, 0, 0, 20, 0⟩, ⟨7, ActiveStatus, 0⟩,
                    ⟨4, 1, 7, ActiveStatus, 6, 1, 0⟩, 4⟩,
              APICode.APICodeSuccess, none⟩)
    ∧ (expiredPairStore.IssueRecords
          = [⟨4, 1, 7, InactiveStatus, 10, 8, 0⟩, ⟨9, 1, 7, ActiveStatus, 5, 8, 0⟩]
      ∧ (5 : Nat) - 8 < 3
      ∧ (Service.ExecWriteOff expiredPairStore quietEnv ⟨1, 7, 3⟩).map
          (fun res => (res.code, res.store.IssueRecords))
        = some (APICode.APICodeSuccess,
            [⟨4, 1, 7, InactiveStatus, 10, 8, 0⟩, ⟨9, 1, 7, ActiveStatus, 5, 11, 0⟩])) := by
  refine ⟨⟨by decide, by decide, by decide, by decide⟩, by decide, by decide, by decide⟩

/-- C1 (amended): in a store with non-zero primary keys, for an active merchant, an active
customer and the active issue record of the pair that the lookup returns (the one with the
least id), when that record has received ≤ totalReceive and the lookups report no error,
every num above totalReceive - received makes `ExecWriteOff` return `ErrExecWriteOff` with
an error and no response, and the store is left as it was (`EcecWriteOff` is not run). -/
theorem ExecWriteOff_rejects_excess (s : Store) (env : Env) (vo : MerchantExecWriteOffVO)
    (r : IssueRecord)
    (hm : ∃ m ∈ s.Merchants, m.ID = vo.MerchantID ∧ m.Status = ActiveStatus)
    (hc : ∃ c ∈ s.Customers, c.ID = vo.CustomerID ∧ c.Status = ActiveStatus)
    (hmk : ∀ m ∈ s.Merchants, m.ID ≠ 0) (hck : ∀ c ∈ s.Customers, c.ID ≠ 0)
    (hf : ∀ k, k < 3 → env.fault k = none)
    (hr : activeIssueRecord s vo.MerchantID vo.CustomerID = some r)
    (hinv : r.Received ≤ r.TotalReceive) (hT : r.TotalReceive < 2 ^ 64)
    (hnum : r.TotalReceive - r.Received < vo.Num) :
    ∃ e, Service.ExecWriteOff s env vo = some ⟨s, none, APICode.ErrExecWriteOff, some e⟩ := by
  obtain ⟨m, c, -, -, -, hlook⟩ :=
    GetWriteOff_ok s env vo.MerchantID vo.CustomerID hm hc hmk hck hf
  rw [hr] at hlook
  exact ExecWriteOff_rejects_of_lookup s env vo _ _ hlook hinv hT hnum

/-- C1 witness: the scenario of the spec after the first write-off (totalReceive = 10,
received = 8): num = 3 exceeds the remaining 2 and is rejected. -/
theorem ExecWriteOff_rejects_excess_witness :
    ∃ e, Service.ExecWriteOff scenarioStoreAfter quietEnv ⟨1, 7, 3⟩ =
      some ⟨scenarioStoreAfter, none, APICode.ErrExecWriteOff, some e⟩ :=
  ExecWriteOff_rejects_excess scenarioStoreAfter quietEnv ⟨1, 7, 3⟩
    ⟨4, 1, 7, ActiveStatus, 10, 8, 0⟩ (by decide) (by decide) (by decide) (by decide)
    (fun _ _ => rfl) (by decide) (by decide) (by decide) (by decide)

/-- C2 (as stated, refuted): in `pairStore` record 9 is an active issue record of the pair
with totalReceive = 10 and received = 7, and num = 2 is within 10 - 7; no statement fails,
`ExecWriteOff` succeeds, and `EcecWriteOff` stores in record 9 the received of record 4
plus num, 1 + 2 = 3, not 7 + 2.  And with merchant 1 disabled the call for the active issue
record of the scenario ends in a panic (the nil response of `GetWriteOff` is dereferenced)
and commits nothing. -/
theorem ExecWriteOff_overwrites_second_record :
    ((⟨9, 1, 7, ActiveStatus, 10, 7, 0⟩ : IssueRecord) ∈ pairStore.IssueRecords
      ∧ (2 : Nat) ≤ 10 - 7
      ∧ (Service.ExecWriteOff pairStore quietEnv ⟨1, 7, 2⟩).map
          (fun res => (res.code, res.err, res.store.IssueRecords, res.store.Merchants))
        = some (APICode.APICodeSuccess, none,
            [⟨4, 1, 7, ActiveStatus, 6, 3, 0⟩, ⟨9, 1, 7, ActiveStatus, 10, 3, 0⟩],
            [⟨1, ActiveStatus, 0, 0, 22, 0⟩])
      ∧ (3 : Nat) ≠ 7 + 2)
    ∧ ((⟨4, 1, 7, ActiveStatus, 10, 3, 0⟩ : IssueRecord) ∈ disabledStore.IssueRecords
      ∧ (5 : Nat) ≤ 10 - 3
      ∧ Service.ExecWriteOff disabledStore quietEnv ⟨1, 7, 5⟩ = none) := by
  refine ⟨⟨by decide, by decide, by decide, by decide⟩, by decide, by decide, by decide⟩

/-- C2 (amended): in a store with non-zero primary keys, let `m` be the active merchant row
of merchantID (the only row under its id), let an active customer row of customerID exist,
and let `r` be the active issue record of the pair that the lookup returns (the one with
the least id).  For every num ≤ totalReceive - received of `r`, when no statement fails,
`ExecWriteOff` succeeds and `EcecWriteOff` commits: `r` is stored with received = old
received + num, every active issue record of the pair carries that same received, and `m`
is stored with hasWriteOffNum = old value + num in 64-bit arithmetic (exactly old value +
num whenever that sum fits in 64 bits). -/
theorem ExecWriteOff_commits (s : Store) (env : Env) (vo : MerchantExecWriteOffVO)
    (m : Merchant) (r : IssueRecord)
    (hm : m ∈ s.Merchants) (hmid : m.ID = vo.MerchantID) (hmA : m.Status = ActiveStatus)
    (hpk : ∀ x ∈ s.Merchants, x.ID = m.ID → x = m)
    (hc : ∃ c ∈ s.Customers, c.ID = vo.CustomerID ∧ c.Status = ActiveStatus)
    (hmk : ∀ x ∈ s.Merchants, x.ID ≠ 0) (hck : ∀ c ∈ s.Customers, c.ID ≠ 0)
    (hrk : ∀ x ∈ s.IssueRecords, x.ID ≠ 0)
    (hr : activeIssueRecord s vo.MerchantID vo.CustomerID = some r)
    (hT : r.TotalReceive < 2 ^ 64) (hR : r.Received < 2 ^ 64)
    (hnum : vo.Num ≤ r.TotalReceive - r.Received)
    (hf : ∀ k, k < 5 → env.fault k = none) :
    ∃ res, Service.ExecWriteOff s env vo = some res
      ∧ res.code = APICode.APICodeSuccess ∧ res.err = none
      ∧ { r with Received := r.Received + vo.Num } ∈ res.store.IssueRecords
      ∧ (∀ x ∈ res.store.IssueRecords, x.MerchantID = vo.MerchantID →
          x.CustomerID = vo.CustomerID → x.Status = ActiveStatus →
          x.Received = r.Received + vo.Num)
      ∧ { m with HasWriteOffNum := (m.HasWriteOffNum + vo.Num) % 2 ^ 64 }
          ∈ res.store.Merchants
      ∧ (∀ x ∈ res.store.Merchants, x.ID = vo.MerchantID →
          x.HasWriteOffNum = (m.HasWriteOffNum + vo.Num) % 2 ^ 64
          ∧ (m.HasWriteOffNum + vo.Num < 2 ^ 64 →
              x.HasWriteOffNum = m.HasWriteOffNum + vo.Num)) := by
  obtain ⟨m', c, hm'mem, hm'id, -, hlook⟩ :=
    GetWriteOff_ok s env vo.MerchantID vo.CustomerID ⟨m, hm, hmid, hmA⟩ hc hmk hck
      (fun k hk => hf k (by omega))
  have hmm : m' = m := hpk m' hm'mem (by rw [hm'id, hmid])
  subst hmm
  rw [hr] at hlook
  have hrmem : r ∈ s.IssueRecords :=
    (List.mem_filter.1 (minByKey_mem IssueRecord.ID _ _ hr)).1
  exact ExecWriteOff_commits_of_lookup s env vo _ _ hlook (hrk r hrmem) hT hR hnum
    (hf 3 (by omega)) (hf 4 (by omega))

/-- C2 witness: the scenario of the spec, totalReceive = 10, received = 3, num = 5. -/
theorem ExecWriteOff_commits_witness :
    ∃ res, Service.ExecWriteOff scenarioStore quietEnv ⟨1, 7, 5⟩ = some res
      ∧ res.code = APICode.APICodeSuccess ∧ res.err = none
      ∧ (⟨4, 1, 7, ActiveStatus, 10, 3 + 5, 0⟩ : IssueRecord) ∈ res.store.IssueRecords
      ∧ (∀ x ∈ res.store.IssueRecords, x.MerchantID = 1 → x.CustomerID = 7 →
          x.Status = ActiveStatus → x.Received = 3 + 5)
      ∧ (⟨1, ActiveStatus, 0, 0, (20 + 5) % 2 ^ 64, 0⟩ : Merchant) ∈ res.store.Merchants
      ∧ (∀ x ∈ res.store.Merchants, x.ID = 1 →
          x.HasWriteOffNum = (20 + 5) % 2 ^ 64
          ∧ (20 + 5 < 2 ^ 64 → x.HasWriteOffNum = 20 + 5)) :=
  ExecWriteOff_commits scenarioStore quietEnv ⟨1, 7, 5⟩ ⟨1, ActiveStatus, 0, 0, 20, 0⟩
    ⟨4, 1, 7, ActiveStatus, 10, 3, 0⟩ (by decide) (by decide) (by decide) (by decide)
    (by decide) (by decide) (by decide) (by decide) (by decide) (by decide) (by decide)
    (by decide) (fun _ _ => rfl)

/-- C12 (as stated, refuted): both stores hold two active issue records of the pair, each
starting with received ≤ totalReceive.  In `quotaStore` one write-off of 5 leaves record 9
(totalReceive = 5) with received = 8, above its totalReceive; in `pairStore` one write-off
of 2 lowers record 9 from received = 7 to received = 3. -/
theorem writeOff_breaks_second_record :
    (quotaStore.IssueRecords.map (fun x => (x.ID, x.TotalReceive, x.Received))
        = [(4, 10, 3), (9, 5, 0)]
      ∧ (writeOffTrace 1 7 quotaStore [(quietEnv, 5)]).map
          (fun s => s.IssueRecords.map (fun x => (x.ID, x.TotalReceive, x.Received)))
        = [[(4, 10, 8), (9, 5, 8)]]
      ∧ ¬ (8 : Nat) ≤ 5)
    ∧ (pairStore.IssueRecords.map (fun x => (x.ID, x.TotalReceive, x.Received))
        = [(4, 6, 1), (9, 10, 7)]
      ∧ (writeOffTrace 1 7 pairStore [(quietEnv, 2)]).map
          (fun s => s.IssueRecords.map (fun x => (x.ID, x.TotalReceive, x.Received)))
        = [[(4, 6, 3), (9, 10, 3)]]
      ∧ ¬ (7 : Nat) ≤ 3) := by
  refine ⟨⟨by decide, by decide, by decide⟩, by decide, by decide, by decide⟩
end WelfareSign
